import Mathlib

/-
Verification of the openfloor data model (dialog_event.py, envelope.py,
manifest.py, json_serializable.py).

Modelling conventions:
* Untyped Python/JSON values are the inductive `JVal`.  Python `None` is
  `JVal.null`; numbers are rationals (the claims only compare values such as
  0, 1, 1.01, -0.1, where IEEE floats and rationals order identically).
* `datetime` objects are modelled by their canonical `isoformat()`
  rendering.  The composition of `datetime.fromisoformat` with that
  rendering is the explicit parameter `iso : String → Option String`:
  `iso s = none` models the `ValueError` raised on an invalid string, and
  `iso s = some c` models successful parsing into a datetime whose later
  `isoformat()` call prints `c` (for the library function, e.g.
  `iso "2024-01-01" = some "2024-01-01T00:00:00"` — the rendering is not
  the identity on non-canonical inputs).  Since a stored datetime is its
  canonical rendering, projecting it emits the stored string, and
  projecting a stored non-string `endTime` fails exactly as the Python
  attribute error does.
* Each dataclass `T` gets a record `T`, a constructor `T.init` modelling the
  call `T(**kwargs)` (an argument of `Option JVal` is `none` when the keyword
  is omitted, so field defaults and `default_factory` apply) followed by
  `__post_init__`, a `T.from_dict`, and a projection `T.project` modelling
  `dict(x)` through `__iter__`.  Fallible operations return `Except Err`.
* The side effects `datetime.now().isoformat()` (Span) and `uuid.uuid4()`
  (Conversation) are passed explicitly as the parameters `now` and `fresh`.
-/

set_option maxRecDepth 4000

namespace OpenFloor

/-- Untyped JSON / Python values exchanged with `from_dict` and `dict(x)`. -/
inductive JVal where
  | null
  | bool (b : Bool)
  | num (q : ℚ)
  | str (s : String)
  | arr (elems : List JVal)
  | obj (entries : List (String × JVal))


/-- Python exceptions raised by the model: `TypeError` (bad call / bad shape)
and `ValueError` (validation rule violated). -/
inductive Err where
  | typeError (msg : String)
  | valueError (msg : String)


/-- First-match lookup in an ordered key-value list (Python dict access). -/
def jlookup : List (String × JVal) → String → Option JVal
  | [], _ => none
  | (k, v) :: rest, key => if k = key then some v else jlookup rest key

/-- Lookup with a default (Python `dict.get` / dataclass field default). -/
def getD (kvs : List (String × JVal)) (k : String) (d : JVal) : JVal :=
  (jlookup kvs k).getD d

/-- Test for Python `None` (`x is None`). -/
def JVal.isNull : JVal → Bool
  | .null => true
  | _ => false

/-- Equality test against a string constant (Python `x == "s"`). -/
def JVal.eqStr : JVal → String → Bool
  | .str a, b => a = b
  | _, _ => false

/-- Python truthiness of a value (`if x:`). -/
def pyTruthy : JVal → Bool
  | .null => false
  | .bool b => b
  | .num q => q != 0
  | .str s => s != ""
  | .arr l => !l.isEmpty
  | .obj l => !l.isEmpty

/-- A projection entry emitted only when the value is not `None`
(the `if x is not None: yield` pattern). -/
def optEntry (k : String) (v : JVal) : List (String × JVal) :=
  match v with
  | .null => []
  | _ => [(k, v)]

/-- A projection entry emitted only when the value is truthy
(the `if x: yield` pattern). -/
def truthyEntry (k : String) (v : JVal) : List (String × JVal) :=
  if pyTruthy v then [(k, v)] else []

/-- Require a mapping (`cls(**data)` / `.items()` on a non-dict raises). -/
def asObj : JVal → Except Err (List (String × JVal))
  | .obj kvs => .ok kvs
  | _ => .error (.typeError "argument is not a mapping")

/-- Require a list (iterating a non-sequence in a comprehension raises). -/
def asArr : JVal → Except Err (List JVal)
  | .arr l => .ok l
  | _ => .error (.typeError "argument is not a list")

/-- Model of `cls(**data)` raises `TypeError` on an unexpected keyword argument. -/
def checkKeys (kvs : List (String × JVal)) (allowed : List String) :
    Except Err Unit :=
  if kvs.all (fun kv => allowed.contains kv.1) then .ok ()
  else .error (.typeError "unexpected keyword argument")

/-- True exactly on the error branch of an `Except`. -/
def isErr : Except Err α → Bool
  | .error _ => true
  | .ok _ => false

/-- List traversal in an `Except`, modelling a Python list comprehension that
stops at the first raised exception. -/
def mapME (f : γ → Except Err α) : List γ → Except Err (List α)
  | [] => .ok []
  | x :: xs => do
    let y ← f x
    let ys ← mapME f xs
    pure (y :: ys)

/-- The `if key in data: data[key] = reconstruct(data[key])` pattern of the
`from_dict` methods: an absent key stays absent, a present value is
reconstructed (propagating its error). -/
def optRecon {α : Type} (f : JVal → Except Err α) :
    Option JVal → Except Err (Option α)
  | none => pure none
  | some v => do
    let a ← f v
    pure (some a)

/-- Model of the endTime preprocessing in `Span.from_dict`
(`if 'endTime' in data and isinstance(data['endTime'], str):
data['endTime'] = datetime.fromisoformat(data['endTime'])`): a present
string is parsed with `iso`, which raises `ValueError` on an invalid
string and otherwise stores the parsed datetime (its canonical
rendering); any other present value is kept untouched, and an absent key
stays absent. -/
def isoParseEntry (iso : String → Option String) :
    Option JVal → Except Err (Option JVal)
  | some (JVal.str s) =>
    match iso s with
    | some c => pure (some (JVal.str c))
    | none => .error (.valueError "Invalid isoformat string")
  | o => pure o

/-- The fields of `Span` in dialog_event.py.  `endTime` holds the modelled
datetime (its canonical rendering) or whatever raw value construction
stored. -/
structure Span where
  startTime : JVal
  startOffset : JVal
  endTime : JVal
  endOffset : JVal


/-- Model of `Span(**kwargs)`: an omitted `startTime` is filled by the
`default_factory` with the current time `now`; the other fields default to
`None`; then `Span.__post_init__` validates. -/
def Span.init (now : String) (startTime startOffset endTime endOffset : Option JVal) :
    Except Err Span :=
  let st := startTime.getD (JVal.str now)
  let so := startOffset.getD JVal.null
  let et := endTime.getD JVal.null
  let eo := endOffset.getD JVal.null
  if !st.isNull && !so.isNull then
    .error (.valueError "Cannot specify both startTime and startOffset")
  else if !et.isNull && !eo.isNull then
    .error (.valueError "Cannot specify both endTime and endOffset")
  else if st.isNull && so.isNull then
    .error (.valueError "Must specify either startTime or startOffset")
  else
    .ok ⟨st, so, et, eo⟩

/-- Model of `Span.from_dict`: a string `endTime` is parsed with
`datetime.fromisoformat` (the parameter `iso`), then `cls(**data)`. -/
def Span.from_dict (iso : String → Option String) (now : String)
    (data : JVal) : Except Err Span := do
  let kvs ← asObj data
  let endT ← isoParseEntry iso (jlookup kvs "endTime")
  checkKeys kvs ["startTime", "startOffset", "endTime", "endOffset"]
  Span.init now (jlookup kvs "startTime") (jlookup kvs "startOffset") endT
    (jlookup kvs "endOffset")

/-- Model of `Span.__iter__` / `dict(span)`: each field is emitted when not `None`;
`endTime` is emitted via `.isoformat()`, which fails on a non-datetime. -/
def Span.project (s : Span) : Except Err (List (String × JVal)) := do
  let endEntry : List (String × JVal) ←
    match s.endTime with
    | JVal.null => pure []
    | JVal.str t => pure [("endTime", JVal.str t)]
    | _ => .error (.typeError "endTime value has no isoformat attribute")
  pure (optEntry "startTime" s.startTime ++ optEntry "startOffset" s.startOffset
    ++ endEntry ++ optEntry "endOffset" s.endOffset)

/-- The fields of `Token` in dialog_event.py. -/
structure Token where
  value : JVal
  valueUrl : JVal
  span : Option Span
  confidence : JVal
  links : JVal


/-- Model of `Token(**kwargs)` followed by `Token.__post_init__`.  A `bool`
confidence passes the range check because Python booleans are the integers
0 and 1; a non-numeric confidence makes the `<=` comparison raise. -/
def Token.init (value valueUrl : Option JVal) (span : Option (Option Span))
    (confidence links : Option JVal) : Except Err Token :=
  let v := value.getD JVal.null
  let u := valueUrl.getD JVal.null
  let sp := span.getD none
  let c := confidence.getD JVal.null
  let ls := links.getD (JVal.arr [])
  if v.isNull && u.isNull then
    .error (.valueError "Must specify either value or valueUrl")
  else if !v.isNull && !u.isNull then
    .error (.valueError "Cannot specify both value and valueUrl")
  else
    match c with
    | JVal.null => .ok ⟨v, u, sp, c, ls⟩
    | JVal.num q =>
      if 0 ≤ q ∧ q ≤ 1 then .ok ⟨v, u, sp, c, ls⟩
      else .error (.valueError "Confidence must be between 0 and 1")
    | JVal.bool _ => .ok ⟨v, u, sp, c, ls⟩
    | _ => .error (.typeError "comparison not supported for confidence value")

/-- Model of `Token.from_dict`: a present `span` is reconstructed first. -/
def Token.from_dict (iso : String → Option String) (now : String)
    (data : JVal) : Except Err Token := do
  let kvs ← asObj data
  let sp ← optRecon (Span.from_dict iso now) (jlookup kvs "span")
  checkKeys kvs ["value", "valueUrl", "span", "confidence", "links"]
  Token.init (jlookup kvs "value") (jlookup kvs "valueUrl") (sp.map some)
    (jlookup kvs "confidence") (jlookup kvs "links")

/-- Model of `Token.__iter__` / `dict(token)`. -/
def Token.project (t : Token) : Except Err (List (String × JVal)) := do
  let spanEntry : List (String × JVal) ←
    match t.span with
    | none => pure []
    | some sp => do
      let p ← sp.project
      pure [("span", JVal.obj p)]
  pure (optEntry "value" t.value ++ optEntry "valueUrl" t.valueUrl ++ spanEntry
    ++ optEntry "confidence" t.confidence ++ truthyEntry "links" t.links)

/-- The fields of `Feature` in dialog_event.py. -/
structure Feature where
  mimeType : JVal
  tokens : List Token
  alternates : List (List Token)
  lang : JVal
  encoding : JVal
  tokenSchema : JVal

/-- Model of `Feature(**kwargs)` followed by `Feature.__post_init__`. -/
def Feature.init (mimeType : Option JVal) (tokens : Option (List Token))
    (alternates : Option (List (List Token)))
    (lang encoding tokenSchema : Option JVal) : Except Err Feature :=
  let mt := mimeType.getD (JVal.str "text/plain")
  let tks := tokens.getD []
  let alts := alternates.getD []
  let enc := encoding.getD JVal.null
  if enc.isNull || enc.eqStr "ISO-8859-1" || enc.eqStr "UTF-8" then
    .ok ⟨mt, tks, alts, lang.getD JVal.null, enc, tokenSchema.getD JVal.null⟩
  else .error (.valueError "Encoding must be ISO-8859-1 or UTF-8")

/-- Model of `Feature.from_dict`: present `tokens` and `alternates` are lists whose
elements are reconstructed into `Token` values first. -/
def Feature.from_dict (iso : String → Option String) (now : String)
    (data : JVal) : Except Err Feature := do
  let kvs ← asObj data
  let tks ← optRecon (fun v => do
    let l ← asArr v
    mapME (Token.from_dict iso now) l) (jlookup kvs "tokens")
  let alts ← optRecon (fun v => do
    let l ← asArr v
    mapME (fun a => do
      let la ← asArr a
      mapME (Token.from_dict iso now) la) l) (jlookup kvs "alternates")
  checkKeys kvs ["mimeType", "tokens", "alternates", "lang", "encoding",
    "tokenSchema"]
  Feature.init (jlookup kvs "mimeType") tks alts (jlookup kvs "lang")
    (jlookup kvs "encoding") (jlookup kvs "tokenSchema")

/-- Model of `Feature.__iter__` / `dict(feature)`: `mimeType` and `tokens` are always
emitted, `alternates` only when non-empty, the rest when not `None`. -/
def Feature.project (f : Feature) : Except Err (List (String × JVal)) := do
  let tokenObjs ← mapME (fun t => do
    let p ← Token.project t
    pure (JVal.obj p)) f.tokens
  let altEntry : List (String × JVal) ←
    if f.alternates.isEmpty then pure []
    else do
      let alts ← mapME (fun la => do
        let ps ← mapME (fun t => do
          let p ← Token.project t
          pure (JVal.obj p)) la
        pure (JVal.arr ps)) f.alternates
      pure [("alternates", JVal.arr alts)]
  pure ([("mimeType", f.mimeType), ("tokens", JVal.arr tokenObjs)] ++ altEntry
    ++ optEntry "lang" f.lang ++ optEntry "encoding" f.encoding
    ++ optEntry "tokenSchema" f.tokenSchema)

/-- The fields of `DialogEvent` in dialog_event.py; `features` is the ordered
name-to-feature mapping. -/
structure DialogEvent where
  id : JVal
  speakerUri : JVal
  span : Span
  features : List (String × Feature)
  previousId : JVal
  context : JVal

/-- Model of `DialogEvent(**kwargs)`: `id`, `speakerUri` and `span` are required
positional arguments, then `__post_init__` rejects an empty feature map. -/
def DialogEvent.init (id speakerUri : Option JVal) (span : Option Span)
    (features : Option (List (String × Feature)))
    (previousId context : Option JVal) : Except Err DialogEvent :=
  match id, speakerUri, span with
  | some i, some su, some sp =>
    let fs := features.getD []
    if fs.isEmpty then
      .error (.valueError "Dialog event must contain at least one feature")
    else
      .ok ⟨i, su, sp, fs, previousId.getD JVal.null, context.getD JVal.null⟩
  | _, _, _ => .error (.typeError "missing required argument")

/-- Model of `DialogEvent.from_dict`: a present `span` and the values of a present
`features` mapping are reconstructed first. -/
def DialogEvent.from_dict (iso : String → Option String) (now : String)
    (data : JVal) : Except Err DialogEvent := do
  let kvs ← asObj data
  let sp ← optRecon (Span.from_dict iso now) (jlookup kvs "span")
  let fs ← optRecon (fun v => do
    let fkvs ← asObj v
    mapME (fun kv => do
      let f ← Feature.from_dict iso now kv.2
      pure (kv.1, f)) fkvs) (jlookup kvs "features")
  checkKeys kvs ["id", "speakerUri", "span", "features", "previousId",
    "context"]
  DialogEvent.init (jlookup kvs "id") (jlookup kvs "speakerUri") sp fs
    (jlookup kvs "previousId") (jlookup kvs "context")

/-- Model of `DialogEvent.__iter__` / `dict(event)`. -/
def DialogEvent.project (d : DialogEvent) :
    Except Err (List (String × JVal)) := do
  let sp ← d.span.project
  let fs ← mapME (fun kv => do
    let p ← Feature.project kv.2
    pure (kv.1, JVal.obj p)) d.features
  pure ([("id", d.id), ("speakerUri", d.speakerUri), ("span", JVal.obj sp),
    ("features", JVal.obj fs)]
    ++ optEntry "previousId" d.previousId ++ optEntry "context" d.context)

/-- The fields of `Identification` in manifest.py. -/
structure Identification where
  speakerUri : JVal
  serviceUrl : JVal
  organization : JVal
  conversationalName : JVal
  department : JVal
  role : JVal
  synopsis : JVal

/-- Model of `Identification(**kwargs)`: `speakerUri` and `serviceUrl` are required
arguments and `__post_init__` also rejects `None` for either. -/
def Identification.init (speakerUri serviceUrl : Option JVal)
    (organization conversationalName department role synopsis : Option JVal) :
    Except Err Identification :=
  match speakerUri, serviceUrl with
  | some su, some sv =>
    if su.isNull then
      .error (.valueError "speakerUri is required to create an instance of the Identification class")
    else if sv.isNull then
      .error (.valueError "serviceUrl is required to create an instance of the Identification class")
    else
      .ok ⟨su, sv, organization.getD JVal.null,
        conversationalName.getD JVal.null, department.getD JVal.null,
        role.getD JVal.null, synopsis.getD JVal.null⟩
  | _, _ => .error (.typeError "missing required argument")

/-- Model of `Identification.from_dict` is `cls(**data)`. -/
def Identification.from_dict (data : JVal) : Except Err Identification := do
  let kvs ← asObj data
  checkKeys kvs ["speakerUri", "serviceUrl", "organization",
    "conversationalName", "department", "role", "synopsis"]
  Identification.init (jlookup kvs "speakerUri") (jlookup kvs "serviceUrl")
    (jlookup kvs "organization") (jlookup kvs "conversationalName")
    (jlookup kvs "department") (jlookup kvs "role") (jlookup kvs "synopsis")

/-- Model of `Identification.__iter__`: the two required fields always, the five
optional ones when not `None`. -/
def Identification.project (i : Identification) : List (String × JVal) :=
  [("speakerUri", i.speakerUri), ("serviceUrl", i.serviceUrl)]
  ++ optEntry "organization" i.organization
  ++ optEntry "conversationalName" i.conversationalName
  ++ optEntry "department" i.department
  ++ optEntry "role" i.role
  ++ optEntry "synopsis" i.synopsis

/-- The fields of `SupportedLayers` in envelope.py / manifest.py. -/
structure SupportedLayers where
  input : JVal
  output : JVal

/-- Model of `SupportedLayers(**kwargs)`: both fields default to `["text"]`; there is
no validation. -/
def SupportedLayers.init (input output : Option JVal) : SupportedLayers :=
  ⟨input.getD (JVal.arr [JVal.str "text"]),
   output.getD (JVal.arr [JVal.str "text"])⟩

/-- Model of `SupportedLayers.from_dict` is `cls(**data)`. -/
def SupportedLayers.from_dict (data : JVal) : Except Err SupportedLayers := do
  let kvs ← asObj data
  checkKeys kvs ["input", "output"]
  pure (SupportedLayers.init (jlookup kvs "input") (jlookup kvs "output"))

/-- Model of `SupportedLayers.__iter__`: both fields are always emitted. -/
def SupportedLayers.project (s : SupportedLayers) : List (String × JVal) :=
  [("input", s.input), ("output", s.output)]

/-- The fields of `Capability`; after `__post_init__` the `supportedLayers`
field is never `None`. -/
structure Capability where
  keyphrases : JVal
  descriptions : JVal
  languages : JVal
  supportedLayers : SupportedLayers

/-- Model of `Capability(**kwargs)`: `keyphrases` and `descriptions` are required;
`__post_init__` replaces an absent `supportedLayers` with the default. -/
def Capability.init (keyphrases descriptions languages : Option JVal)
    (supportedLayers : Option (Option SupportedLayers)) :
    Except Err Capability :=
  match keyphrases, descriptions with
  | some kp, some ds =>
    .ok ⟨kp, ds, languages.getD JVal.null,
      (supportedLayers.getD none).getD (SupportedLayers.init none none)⟩
  | _, _ => .error (.typeError "missing required argument")

/-- Model of `Capability.from_dict`: a present `supportedLayers` is reconstructed. -/
def Capability.from_dict (data : JVal) : Except Err Capability := do
  let kvs ← asObj data
  let sl ← optRecon SupportedLayers.from_dict (jlookup kvs "supportedLayers")
  checkKeys kvs ["keyphrases", "descriptions", "languages", "supportedLayers"]
  Capability.init (jlookup kvs "keyphrases") (jlookup kvs "descriptions")
    (jlookup kvs "languages") (sl.map some)

/-- Model of `Capability.__iter__`: `languages` when not `None`; `supportedLayers`
always (it is never `None` after construction). -/
def Capability.project (c : Capability) : List (String × JVal) :=
  [("keyphrases", c.keyphrases), ("descriptions", c.descriptions)]
  ++ optEntry "languages" c.languages
  ++ [("supportedLayers", JVal.obj c.supportedLayers.project)]

/-- The fields of `Manifest`. -/
structure Manifest where
  identification : Identification
  capabilities : List Capability

/-- Model of `Manifest(**kwargs)`: both fields are required; no validation. -/
def Manifest.init (identification : Option Identification)
    (capabilities : Option (List Capability)) : Except Err Manifest :=
  match identification, capabilities with
  | some i, some c => .ok ⟨i, c⟩
  | _, _ => .error (.typeError "missing required argument")

/-- Model of `Manifest.from_dict`: present `identification` and `capabilities` are
reconstructed first. -/
def Manifest.from_dict (data : JVal) : Except Err Manifest := do
  let kvs ← asObj data
  let idn ← optRecon Identification.from_dict (jlookup kvs "identification")
  let caps ← optRecon (fun v => do
    let l ← asArr v
    mapME Capability.from_dict l) (jlookup kvs "capabilities")
  checkKeys kvs ["identification", "capabilities"]
  Manifest.init idn caps

/-- Model of `Manifest.__iter__`: both fields are always emitted. -/
def Manifest.project (m : Manifest) : List (String × JVal) :=
  [("identification", JVal.obj m.identification.project),
   ("capabilities", JVal.arr (m.capabilities.map
     (fun c => JVal.obj c.project)))]

/-- The fields of `Schema` in envelope.py. -/
structure Schema where
  version : JVal
  url : JVal

/-- Model of `Schema(**kwargs)`: `version` defaults to `"1.0.0"` when omitted, and
`__post_init__` also replaces an explicit `None` by `"1.0.0"`. -/
def Schema.init (version url : Option JVal) : Schema :=
  let v := version.getD (JVal.str "1.0.0")
  ⟨if v.isNull then JVal.str "1.0.0" else v, url.getD JVal.null⟩

/-- Model of `Schema.from_dict` is `cls(**data)`. -/
def Schema.from_dict (data : JVal) : Except Err Schema := do
  let kvs ← asObj data
  checkKeys kvs ["version", "url"]
  pure (Schema.init (jlookup kvs "version") (jlookup kvs "url"))

/-- Model of `Schema.__iter__`: `version` always, `url` when not `None`. -/
def Schema.project (s : Schema) : List (String × JVal) :=
  [("version", s.version)] ++ optEntry "url" s.url

/-- The fields of `Conversant` in envelope.py. -/
structure Conversant where
  identification : Identification
  persistentState : JVal

/-- Model of `Conversant(**kwargs)`: `identification` is required and
`__post_init__` rejects an explicit `None`; `persistentState` defaults to
the empty mapping. -/
def Conversant.init (identification : Option (Option Identification))
    (persistentState : Option JVal) : Except Err Conversant :=
  match identification with
  | none => .error (.typeError "missing required argument")
  | some none =>
    .error (.valueError "identification is required for the Conversant")
  | some (some i) => .ok ⟨i, persistentState.getD (JVal.obj [])⟩

/-- Model of `Conversant.from_dict`: a present `identification` is reconstructed. -/
def Conversant.from_dict (data : JVal) : Except Err Conversant := do
  let kvs ← asObj data
  let idn ← optRecon Identification.from_dict (jlookup kvs "identification")
  checkKeys kvs ["identification", "persistentState"]
  Conversant.init (idn.map some) (jlookup kvs "persistentState")

/-- Model of `Conversant.__iter__`: `identification` always, `persistentState` only
when truthy (the raw mapping is emitted verbatim). -/
def Conversant.project (c : Conversant) : List (String × JVal) :=
  [("identification", JVal.obj c.identification.project)]
  ++ truthyEntry "persistentState" c.persistentState

/-- The fields of `Conversation` in envelope.py. -/
structure Conversation where
  id : JVal
  conversants : List Conversant

/-- Model of `Conversation(**kwargs)`: `__post_init__` replaces a `None` id by
`"conv:" + uuid4()`; the generated uuid is the explicit parameter `fresh`. -/
def Conversation.init (fresh : String) (id : Option JVal)
    (conversants : Option (List Conversant)) : Conversation :=
  let i := id.getD JVal.null
  ⟨if i.isNull then JVal.str ("conv:" ++ fresh) else i, conversants.getD []⟩

/-- Model of `Conversation.from_dict`: a present `conversants` list is reconstructed
element-wise. -/
def Conversation.from_dict (fresh : String) (data : JVal) :
    Except Err Conversation := do
  let kvs ← asObj data
  let cs ← optRecon (fun v => do
    let l ← asArr v
    mapME Conversant.from_dict l) (jlookup kvs "conversants")
  checkKeys kvs ["id", "conversants"]
  pure (Conversation.init fresh (jlookup kvs "id") cs)

/-- Model of `Conversation.__iter__`: `id` always, `conversants` when non-empty. -/
def Conversation.project (c : Conversation) : List (String × JVal) :=
  [("id", c.id)]
  ++ (if c.conversants.isEmpty then []
      else [("conversants", JVal.arr (c.conversants.map
        (fun cv => JVal.obj cv.project)))])

/-- The fields of `Sender` in envelope.py.  Note there is no
`__post_init__`: a `None` `speakerUri` is accepted. -/
structure Sender where
  speakerUri : JVal
  serviceUrl : JVal

/-- Model of `Sender(**kwargs)`: `speakerUri` is a required argument (omitting it is
a `TypeError`), but its value is not validated. -/
def Sender.init (speakerUri serviceUrl : Option JVal) : Except Err Sender :=
  match speakerUri with
  | none => .error (.typeError "missing required argument speakerUri")
  | some su => .ok ⟨su, serviceUrl.getD JVal.null⟩

/-- Model of `Sender.from_dict` is `cls(**data)`. -/
def Sender.from_dict (data : JVal) : Except Err Sender := do
  let kvs ← asObj data
  checkKeys kvs ["speakerUri", "serviceUrl"]
  Sender.init (jlookup kvs "speakerUri") (jlookup kvs "serviceUrl")

/-- Model of `Sender.__iter__`: `speakerUri` always, `serviceUrl` when not `None`. -/
def Sender.project (s : Sender) : List (String × JVal) :=
  [("speakerUri", s.speakerUri)] ++ optEntry "serviceUrl" s.serviceUrl

/-- The fields of `To` in envelope.py.  The source field `private` is a Lean
keyword and is spelt `privateFlag` here; its wire key stays `"private"`. -/
structure To where
  speakerUri : JVal
  serviceUrl : JVal
  privateFlag : JVal

/-- Model of `To(**kwargs)` followed by `To.__post_init__`. -/
def To.init (speakerUri serviceUrl privateFlag : Option JVal) :
    Except Err To :=
  let su := speakerUri.getD JVal.null
  let sv := serviceUrl.getD JVal.null
  if su.isNull && sv.isNull then
    .error (.valueError "Must specify either speakerUri or serviceUrl")
  else .ok ⟨su, sv, privateFlag.getD (JVal.bool false)⟩

/-- Model of `To.from_dict` is `cls(**data)`. -/
def To.from_dict (data : JVal) : Except Err To := do
  let kvs ← asObj data
  checkKeys kvs ["speakerUri", "serviceUrl", "private"]
  To.init (jlookup kvs "speakerUri") (jlookup kvs "serviceUrl")
    (jlookup kvs "private")

/-- Model of `To.__iter__`: the two uris when not `None`, `private` only when
truthy. -/
def To.project (t : To) : List (String × JVal) :=
  optEntry "speakerUri" t.speakerUri ++ optEntry "serviceUrl" t.serviceUrl
  ++ truthyEntry "private" t.privateFlag

/-- Python `dict(x)` applied to the `parameters` value during projection:
a mapping keeps its entries, a list of `[key, value]` pairs with string keys
becomes a mapping, anything else raises `TypeError`. -/
def pyDict : JVal → Except Err (List (String × JVal))
  | .obj kvs => .ok kvs
  | .arr l => mapME (fun x =>
      match x with
      | JVal.arr [JVal.str k, v] => .ok (k, v)
      | _ => .error (.typeError "cannot convert to a dictionary")) l
  | _ => .error (.typeError "cannot convert to a dictionary")

/-- The fields of `Event` in envelope.py.  The source field `to` is a Lean
reserved token and is spelt `toField` here; its wire key stays `"to"`.
`parameters` holds the raw value;
`__post_init__` only rewraps a mapping into `Parameters`, which leaves the
entries unchanged in this model. -/
structure Event where
  eventType : JVal
  toField : Option To
  reason : JVal
  parameters : JVal

/-- Model of `Event(**kwargs)`: `eventType` is required; `parameters` defaults to an
empty `Parameters` mapping; no further validation. -/
def Event.init (eventType : Option JVal) (toArg : Option (Option To))
    (reason parameters : Option JVal) : Except Err Event :=
  match eventType with
  | none => .error (.typeError "missing required argument eventType")
  | some et =>
    .ok ⟨et, toArg.getD none, reason.getD JVal.null,
      parameters.getD (JVal.obj [])⟩

/-- Model of `Event.from_dict`: a present `to` is reconstructed; a present mapping
`parameters` is wrapped into `Parameters` (contents unchanged). -/
def Event.from_dict (data : JVal) : Except Err Event := do
  let kvs ← asObj data
  let toV ← optRecon To.from_dict (jlookup kvs "to")
  checkKeys kvs ["eventType", "to", "reason", "parameters"]
  Event.init (jlookup kvs "eventType") (toV.map some) (jlookup kvs "reason")
    (jlookup kvs "parameters")

/-- Model of `Event.__iter__`: `eventType` always; `to` and `reason` when not `None`;
`parameters` when truthy, converted with `dict(...)`. -/
def Event.project (e : Event) : Except Err (List (String × JVal)) := do
  let toEntry : List (String × JVal) :=
    match e.toField with
    | none => []
    | some t => [("to", JVal.obj t.project)]
  let paramEntry : List (String × JVal) ←
    if pyTruthy e.parameters then do
      let pk ← pyDict e.parameters
      pure [("parameters", JVal.obj pk)]
    else pure []
  pure ([("eventType", e.eventType)] ++ toEntry ++ optEntry "reason" e.reason
    ++ paramEntry)

/-- The fields of `Envelope` in envelope.py. -/
structure Envelope where
  conversation : Conversation
  sender : Sender
  schema : Schema
  events : List Event

/-- Model of `Envelope(**kwargs)`: `conversation` and `sender` are required; `schema`
defaults to `Schema()` and `events` to the empty list. -/
def Envelope.init (conversation : Option Conversation)
    (sender : Option Sender) (schema : Option Schema)
    (events : Option (List Event)) : Except Err Envelope :=
  match conversation, sender with
  | some c, some s =>
    .ok ⟨c, s, schema.getD (Schema.init none none), events.getD []⟩
  | _, _ => .error (.typeError "missing required argument")

/-- Model of `Envelope.from_dict`: present `schema`, `conversation`, `sender` and the
elements of a present `events` list are reconstructed first. -/
def Envelope.from_dict (fresh : String) (data : JVal) :
    Except Err Envelope := do
  let kvs ← asObj data
  let sch ← optRecon Schema.from_dict (jlookup kvs "schema")
  let conv ← optRecon (Conversation.from_dict fresh) (jlookup kvs "conversation")
  let snd ← optRecon Sender.from_dict (jlookup kvs "sender")
  let evs ← optRecon (fun v => do
    let l ← asArr v
    mapME Event.from_dict l) (jlookup kvs "events")
  checkKeys kvs ["schema", "conversation", "sender", "events"]
  Envelope.init conv snd sch evs

/-- Model of `Envelope.__iter__`: `schema`, `conversation` and `sender` always,
`events` when non-empty. -/
def Envelope.project (e : Envelope) : Except Err (List (String × JVal)) := do
  let evs ← mapME (fun ev => do
    let p ← Event.project ev
    pure (JVal.obj p)) e.events
  pure ([("schema", JVal.obj e.schema.project),
    ("conversation", JVal.obj e.conversation.project),
    ("sender", JVal.obj e.sender.project)]
    ++ (if e.events.isEmpty then [] else [("events", JVal.arr evs)]))

/-- Model of `split_kwargs` in json_serializable.py, with the class represented by
its (duplicate-free) list of dataclass field names; a class without
dataclass fields is the empty list.  The defined part maps every field to
its `kwargs` value or `None`; the undefined part keeps the remaining
`kwargs` entries in order. -/
def split_kwargs (fields : List String) (kwargs : List (String × JVal)) :
    List (String × JVal) × List (String × JVal) :=
  (fields.map (fun f => (f, (jlookup kwargs f).getD JVal.null)),
   kwargs.filter (fun kv => !fields.contains kv.1))

/-
Canonicalization functions: for each record type, `canonT m` is the mapping
the wire contract produces for an input mapping `m` that reconstructs and
projects successfully — `m` reordered to field declaration order, with
absent-or-`None` optional keys removed, falsy optional flags and empty
optional collections removed, and always-projected defaulted fields
inserted.  They are stated purely in terms of the input mapping (and the
`now` / `fresh` effect parameters) so that the canonicalization theorems
relate two independent definitions.
-/

/-- The entries of a mapping value (junk `[]` on non-mappings, which the
canonicalization theorems exclude via their success hypotheses). -/
def objEntries : JVal → List (String × JVal)
  | .obj kvs => kvs
  | _ => []

/-- The elements of a list value (junk `[]` on non-lists). -/
def arrElems : JVal → List JVal
  | .arr l => l
  | _ => []

/-- Canonical wire form of a `Span` mapping: an `endTime` string comes
back as its normalized rendering `iso s`, not verbatim. -/
def canonSpan (iso : String → Option String) (now : String)
    (kvs : List (String × JVal)) : List (String × JVal) :=
  optEntry "startTime" (getD kvs "startTime" (JVal.str now))
  ++ optEntry "startOffset" (getD kvs "startOffset" JVal.null)
  ++ (match jlookup kvs "endTime" with
      | some (JVal.str s) =>
        match iso s with
        | some c => [("endTime", JVal.str c)]
        | none => []
      | _ => [])
  ++ optEntry "endOffset" (getD kvs "endOffset" JVal.null)

/-- Canonical wire form of a `Token` mapping. -/
def canonToken (iso : String → Option String) (now : String)
    (kvs : List (String × JVal)) : List (String × JVal) :=
  optEntry "value" (getD kvs "value" JVal.null)
  ++ optEntry "valueUrl" (getD kvs "valueUrl" JVal.null)
  ++ (match jlookup kvs "span" with
      | some (JVal.obj svs) => [("span", JVal.obj (canonSpan iso now svs))]
      | _ => [])
  ++ optEntry "confidence" (getD kvs "confidence" JVal.null)
  ++ truthyEntry "links" (getD kvs "links" (JVal.arr []))

/-- Canonical wire form of a `Feature` mapping. -/
def canonFeature (iso : String → Option String) (now : String)
    (kvs : List (String × JVal)) : List (String × JVal) :=
  [("mimeType", getD kvs "mimeType" (JVal.str "text/plain")),
   ("tokens", JVal.arr (match jlookup kvs "tokens" with
     | some (JVal.arr l) =>
       l.map (fun t => JVal.obj (canonToken iso now (objEntries t)))
     | _ => []))]
  ++ (match jlookup kvs "alternates" with
      | some (JVal.arr l) =>
        if l.isEmpty then []
        else [("alternates", JVal.arr (l.map (fun a =>
          JVal.arr ((arrElems a).map
            (fun t => JVal.obj (canonToken iso now (objEntries t)))))))]
      | _ => [])
  ++ optEntry "lang" (getD kvs "lang" JVal.null)
  ++ optEntry "encoding" (getD kvs "encoding" JVal.null)
  ++ optEntry "tokenSchema" (getD kvs "tokenSchema" JVal.null)

/-- Canonical wire form of a `DialogEvent` mapping. -/
def canonDialogEvent (iso : String → Option String) (now : String)
    (kvs : List (String × JVal)) : List (String × JVal) :=
  [("id", getD kvs "id" JVal.null),
   ("speakerUri", getD kvs "speakerUri" JVal.null),
   ("span", JVal.obj (canonSpan iso now
     (objEntries (getD kvs "span" (JVal.obj []))))),
   ("features", JVal.obj (match jlookup kvs "features" with
     | some (JVal.obj fkvs) =>
       fkvs.map (fun kv =>
         (kv.1, JVal.obj (canonFeature iso now (objEntries kv.2))))
     | _ => []))]
  ++ optEntry "previousId" (getD kvs "previousId" JVal.null)
  ++ optEntry "context" (getD kvs "context" JVal.null)

/-- Canonical wire form of an `Identification` mapping. -/
def canonIdentification (kvs : List (String × JVal)) :
    List (String × JVal) :=
  [("speakerUri", getD kvs "speakerUri" JVal.null),
   ("serviceUrl", getD kvs "serviceUrl" JVal.null)]
  ++ optEntry "organization" (getD kvs "organization" JVal.null)
  ++ optEntry "conversationalName" (getD kvs "conversationalName" JVal.null)
  ++ optEntry "department" (getD kvs "department" JVal.null)
  ++ optEntry "role" (getD kvs "role" JVal.null)
  ++ optEntry "synopsis" (getD kvs "synopsis" JVal.null)

/-- Canonical wire form of a `SupportedLayers` mapping. -/
def canonSupportedLayers (kvs : List (String × JVal)) :
    List (String × JVal) :=
  [("input", getD kvs "input" (JVal.arr [JVal.str "text"])),
   ("output", getD kvs "output" (JVal.arr [JVal.str "text"]))]

/-- Canonical wire form of a `Capability` mapping. -/
def canonCapability (kvs : List (String × JVal)) : List (String × JVal) :=
  [("keyphrases", getD kvs "keyphrases" JVal.null),
   ("descriptions", getD kvs "descriptions" JVal.null)]
  ++ optEntry "languages" (getD kvs "languages" JVal.null)
  ++ [("supportedLayers", JVal.obj (canonSupportedLayers
      (objEntries (getD kvs "supportedLayers" (JVal.obj [])))))]

/-- Canonical wire form of a `Manifest` mapping. -/
def canonManifest (kvs : List (String × JVal)) : List (String × JVal) :=
  [("identification", JVal.obj (canonIdentification
     (objEntries (getD kvs "identification" (JVal.obj []))))),
   ("capabilities", JVal.arr (match jlookup kvs "capabilities" with
     | some (JVal.arr l) =>
       l.map (fun c => JVal.obj (canonCapability (objEntries c)))
     | _ => []))]

/-- Canonical wire form of a `Schema` mapping. -/
def canonSchema (kvs : List (String × JVal)) : List (String × JVal) :=
  let v := getD kvs "version" (JVal.str "1.0.0")
  [("version", if v.isNull then JVal.str "1.0.0" else v)]
  ++ optEntry "url" (getD kvs "url" JVal.null)

/-- Canonical wire form of a `Conversant` mapping. -/
def canonConversant (kvs : List (String × JVal)) : List (String × JVal) :=
  [("identification", JVal.obj (canonIdentification
     (objEntries (getD kvs "identification" (JVal.obj [])))))]
  ++ truthyEntry "persistentState" (getD kvs "persistentState" (JVal.obj []))

/-- Canonical wire form of a `Conversation` mapping; `fresh` is the uuid
used when no id is supplied. -/
def canonConversation (fresh : String) (kvs : List (String × JVal)) :
    List (String × JVal) :=
  let i := getD kvs "id" JVal.null
  [("id", if i.isNull then JVal.str ("conv:" ++ fresh) else i)]
  ++ (match jlookup kvs "conversants" with
      | some (JVal.arr l) =>
        if l.isEmpty then []
        else [("conversants", JVal.arr (l.map
          (fun c => JVal.obj (canonConversant (objEntries c)))))]
      | _ => [])

/-- Canonical wire form of a `Sender` mapping. -/
def canonSender (kvs : List (String × JVal)) : List (String × JVal) :=
  [("speakerUri", getD kvs "speakerUri" JVal.null)]
  ++ optEntry "serviceUrl" (getD kvs "serviceUrl" JVal.null)

/-- Canonical wire form of a `To` mapping. -/
def canonTo (kvs : List (String × JVal)) : List (String × JVal) :=
  optEntry "speakerUri" (getD kvs "speakerUri" JVal.null)
  ++ optEntry "serviceUrl" (getD kvs "serviceUrl" JVal.null)
  ++ truthyEntry "private" (getD kvs "private" (JVal.bool false))

/-- Canonical wire form of an `Event` mapping. -/
def canonEvent (kvs : List (String × JVal)) : List (String × JVal) :=
  [("eventType", getD kvs "eventType" JVal.null)]
  ++ (match jlookup kvs "to" with
      | some (JVal.obj tkvs) => [("to", JVal.obj (canonTo tkvs))]
      | _ => [])
  ++ optEntry "reason" (getD kvs "reason" JVal.null)
  ++ (let p := getD kvs "parameters" (JVal.obj [])
      if pyTruthy p then
        match pyDict p with
        | .ok pk => [("parameters", JVal.obj pk)]
        | .error _ => []
      else [])

/-- Canonical wire form of an `Envelope` mapping. -/
def canonEnvelope (fresh : String) (kvs : List (String × JVal)) :
    List (String × JVal) :=
  [("schema", JVal.obj (canonSchema
     (objEntries (getD kvs "schema" (JVal.obj []))))),
   ("conversation", JVal.obj (canonConversation fresh
     (objEntries (getD kvs "conversation" (JVal.obj []))))),
   ("sender", JVal.obj (canonSender
     (objEntries (getD kvs "sender" (JVal.obj [])))))]
  ++ (match jlookup kvs "events" with
      | some (JVal.arr l) =>
        if l.isEmpty then []
        else [("events", JVal.arr (l.map
          (fun ev => JVal.obj (canonEvent (objEntries ev)))))]
      | _ => [])

/- Generic lemmas about the embedding. -/

theorem exc_bind_ok {α β : Type} {x : Except Err α} {f : α → Except Err β}
    {b : β} : (x >>= f) = .ok b ↔ ∃ a, x = .ok a ∧ f a = .ok b := by
  cases x <;> simp [Bind.bind, Except.bind]

theorem exc_pure_ok {α : Type} {a b : α} :
    (pure a : Except Err α) = .ok b ↔ a = b := by
  simp [pure, Except.pure]

theorem optEntry_eq (k : String) (v : JVal) :
    optEntry k v = if v.isNull then [] else [(k, v)] := by
  cases v <;> rfl

theorem checkKeys_ok {kvs : List (String × JVal)} {allowed : List String}
    {u : Unit} (h : checkKeys kvs allowed = .ok u) :
    kvs.all (fun kv => allowed.contains kv.1) = true := by
  unfold checkKeys at h
  split at h
  · assumption
  · cases h

theorem schema_canon {kvs : List (String × JVal)} {x : Schema}
    (h : Schema.from_dict (JVal.obj kvs) = .ok x) :
    Schema.project x = canonSchema kvs := by
  unfold Schema.from_dict at h
  simp only [asObj, exc_bind_ok, exc_pure_ok] at h
  obtain ⟨a, ha, b, hb, hx⟩ := h
  injection ha with ha
  subst ha hx
  simp only [Schema.project, Schema.init, canonSchema, getD, optEntry_eq]

theorem mapME_map_canon {γ α δ : Type} {f : γ → Except Err α} {g : α → δ}
    {c : γ → δ} (hfc : ∀ v a, f v = .ok a → g a = c v) :
    ∀ {l : List γ} {ts : List α}, mapME f l = .ok ts → ts.map g = l.map c := by
  intro l
  induction l with
  | nil =>
    intro ts h
    unfold mapME at h
    injection h with h
    subst h
    rfl
  | cons hd tl ih =>
    intro ts h
    unfold mapME at h
    simp only [exc_bind_ok, exc_pure_ok] at h
    obtain ⟨a, ha, ys, hys, hts⟩ := h
    subst hts
    simp only [List.map_cons, hfc hd a ha, ih hys]

theorem mapME_canon {γ α δ : Type} {f : γ → Except Err α}
    {g : α → Except Err δ} {c : γ → δ}
    (hfc : ∀ v a, f v = .ok a → ∀ b, g a = .ok b → b = c v) :
    ∀ {l : List γ} {ts : List α} {os : List δ},
      mapME f l = .ok ts → mapME g ts = .ok os → os = l.map c := by
  intro l
  induction l with
  | nil =>
    intro ts os h1 h2
    unfold mapME at h1
    injection h1 with h1
    subst h1
    unfold mapME at h2
    injection h2 with h2
    subst h2
    rfl
  | cons hd tl ih =>
    intro ts os h1 h2
    unfold mapME at h1
    simp only [exc_bind_ok, exc_pure_ok] at h1
    obtain ⟨a, ha, ys, hys, hts⟩ := h1
    subst hts
    unfold mapME at h2
    simp only [exc_bind_ok, exc_pure_ok] at h2
    obtain ⟨b, hb, bs, hbs, hos⟩ := h2
    subst hos
    simp only [List.map_cons, hfc hd a ha b hb, ih hys hbs]

theorem mapME_err {γ α : Type} {f : γ → Except Err α} {x : γ} :
    ∀ {l : List γ}, x ∈ l → isErr (f x) = true →
      isErr (mapME f l) = true := by
  intro l
  induction l with
  | nil => intro hmem; cases hmem
  | cons hd tl ih =>
    intro hmem hx
    unfold mapME
    rcases List.mem_cons.mp hmem with heq | htl
    · subst heq
      cases hfx : f x
      · rfl
      · rw [hfx] at hx; cases hx
    · cases hfhd : f hd
      · rfl
      · cases hrest : mapME f tl
        · rfl
        · have := ih htl hx
          rw [hrest] at this
          cases this

theorem sender_canon {kvs : List (String × JVal)} {x : Sender}
    (h : Sender.from_dict (JVal.obj kvs) = .ok x) :
    Sender.project x = canonSender kvs := by
  unfold Sender.from_dict at h
  simp only [asObj, exc_bind_ok] at h
  obtain ⟨a, ha, b, hb, hx⟩ := h
  injection ha with ha
  subst ha
  unfold Sender.init at hx
  cases hsu : jlookup kvs "speakerUri" with
  | none => rw [hsu] at hx; cases hx
  | some su =>
    rw [hsu] at hx
    injection hx with hx
    subst hx
    simp only [Sender.project, canonSender, getD, hsu, Option.getD,
      optEntry_eq]

theorem to_canon {kvs : List (String × JVal)} {x : To}
    (h : To.from_dict (JVal.obj kvs) = .ok x) :
    To.project x = canonTo kvs := by
  unfold To.from_dict at h
  simp only [asObj, exc_bind_ok] at h
  obtain ⟨a, ha, b, hb, hx⟩ := h
  injection ha with ha
  subst ha
  unfold To.init at hx
  dsimp only at hx
  by_cases hc : (((jlookup kvs "speakerUri").getD JVal.null).isNull
      && ((jlookup kvs "serviceUrl").getD JVal.null).isNull) = true
  · rw [if_pos hc] at hx
    cases hx
  · rw [if_neg hc] at hx
    injection hx with hx
    subst hx
    simp only [To.project, canonTo, getD]

theorem supportedLayers_canon {kvs : List (String × JVal)}
    {x : SupportedLayers} (h : SupportedLayers.from_dict (JVal.obj kvs) = .ok x) :
    SupportedLayers.project x = canonSupportedLayers kvs := by
  unfold SupportedLayers.from_dict at h
  simp only [asObj, exc_bind_ok, exc_pure_ok] at h
  obtain ⟨a, ha, b, hb, hx⟩ := h
  injection ha with ha
  subst ha hx
  simp only [SupportedLayers.project, SupportedLayers.init,
    canonSupportedLayers, getD]

theorem identification_canon {kvs : List (String × JVal)}
    {x : Identification} (h : Identification.from_dict (JVal.obj kvs) = .ok x) :
    Identification.project x = canonIdentification kvs := by
  unfold Identification.from_dict at h
  simp only [asObj, exc_bind_ok] at h
  obtain ⟨a, ha, b, hb, hx⟩ := h
  injection ha with ha
  subst ha
  cases hsu : jlookup kvs "speakerUri" with
  | none =>
    rw [hsu] at hx
    simp only [Identification.init] at hx
    cases hx
  | some su =>
    cases hsv : jlookup kvs "serviceUrl" with
    | none =>
      rw [hsu, hsv] at hx
      simp only [Identification.init] at hx
      cases hx
    | some sv =>
      rw [hsu, hsv] at hx
      simp only [Identification.init] at hx
      by_cases h1 : su.isNull = true
      · rw [if_pos h1] at hx; cases hx
      · rw [if_neg h1] at hx
        by_cases h2 : sv.isNull = true
        · rw [if_pos h2] at hx; cases hx
        · rw [if_neg h2] at hx
          injection hx with hx
          subst hx
          simp only [Identification.project, canonIdentification, getD, hsu,
            hsv, Option.getD]

theorem exc_ok_bind {α β : Type} {a : α} {f : α → Except Err β} :
    ((Except.ok a : Except Err α) >>= f) = f a := rfl

theorem exc_err_bind {α β : Type} {e : Err} {f : α → Except Err β} :
    ((Except.error e : Except Err α) >>= f) = Except.error e := rfl

theorem exc_pure_eq_ok {α : Type} {a : α} :
    (pure a : Except Err α) = .ok a := rfl

theorem isoParseEntry_ok {iso : String → Option String} {o r : Option JVal}
    (h : isoParseEntry iso o = .ok r) :
    (∃ s c, o = some (JVal.str s) ∧ iso s = some c ∧
      r = some (JVal.str c))
  ∨ ((∀ s, o ≠ some (JVal.str s)) ∧ r = o) := by
  cases o with
  | none =>
    right
    simp only [isoParseEntry] at h
    injection h with h
    exact ⟨fun s hs => (by cases hs), h.symm⟩
  | some v =>
    cases v with
    | str s =>
      left
      simp only [isoParseEntry] at h
      cases hiso : iso s with
      | none => rw [hiso] at h; cases h
      | some c =>
        rw [hiso] at h
        injection h with h
        exact ⟨s, c, rfl, hiso, h.symm⟩
    | null =>
      right
      simp only [isoParseEntry] at h
      injection h with h
      exact ⟨fun s hs => (by injection hs with hs2; cases hs2), h.symm⟩
    | bool b =>
      right
      simp only [isoParseEntry] at h
      injection h with h
      exact ⟨fun s hs => (by injection hs with hs2; cases hs2), h.symm⟩
    | num q =>
      right
      simp only [isoParseEntry] at h
      injection h with h
      exact ⟨fun s hs => (by injection hs with hs2; cases hs2), h.symm⟩
    | arr l =>
      right
      simp only [isoParseEntry] at h
      injection h with h
      exact ⟨fun s hs => (by injection hs with hs2; cases hs2), h.symm⟩
    | obj kv =>
      right
      simp only [isoParseEntry] at h
      injection h with h
      exact ⟨fun s hs => (by injection hs with hs2; cases hs2), h.symm⟩

theorem span_canon {iso : String → Option String} {now : String}
    {kvs : List (String × JVal)} {x : Span} {p : List (String × JVal)}
    (h1 : Span.from_dict iso now (JVal.obj kvs) = .ok x)
    (h2 : Span.project x = .ok p) : p = canonSpan iso now kvs := by
  unfold Span.from_dict at h1
  simp only [asObj, exc_bind_ok] at h1
  obtain ⟨a, ha, endT, hendT, u, hu, hx⟩ := h1
  injection ha with ha
  subst ha
  unfold Span.init at hx
  dsimp only at hx
  split at hx
  · cases hx
  · split at hx
    · cases hx
    · split at hx
      · cases hx
      · injection hx with hx
        subst hx
        unfold Span.project at h2
        rcases isoParseEntry_ok hendT with ⟨s, c, ho, hiso, hr⟩ | ⟨hne, hr⟩
        · subst hr
          simp only [Option.getD_some, exc_pure_eq_ok, exc_ok_bind] at h2
          injection h2 with h2
          subst h2
          simp only [canonSpan, getD, ho, hiso]
        · subst hr
          cases het : jlookup kvs "endTime" with
          | none =>
            rw [het] at h2
            simp only [Option.getD_none, exc_pure_eq_ok, exc_ok_bind] at h2
            injection h2 with h2
            subst h2
            simp only [canonSpan, getD, het, List.append_nil,
              List.nil_append]
          | some v =>
            rw [het] at h2
            cases v with
            | str s => exact absurd het (hne s)
            | null =>
              simp only [Option.getD_some, exc_pure_eq_ok, exc_ok_bind] at h2
              injection h2 with h2
              subst h2
              simp only [canonSpan, getD, het, List.append_nil,
                List.nil_append]
            | bool bb =>
              simp only [Option.getD_some, exc_err_bind] at h2
              cases h2
            | num q =>
              simp only [Option.getD_some, exc_err_bind] at h2
              cases h2
            | arr l =>
              simp only [Option.getD_some, exc_err_bind] at h2
              cases h2
            | obj o =>
              simp only [Option.getD_some, exc_err_bind] at h2
              cases h2

theorem optRecon_ok {α : Type} {f : JVal → Except Err α} {o : Option JVal}
    {r : Option α} (h : optRecon f o = .ok r) :
    (o = none ∧ r = none) ∨ ∃ v a, o = some v ∧ f v = .ok a ∧ r = some a := by
  cases o with
  | none =>
    left
    refine ⟨rfl, ?_⟩
    unfold optRecon at h
    injection h with h
    exact h.symm
  | some v =>
    right
    unfold optRecon at h
    simp only [exc_bind_ok, exc_pure_ok] at h
    obtain ⟨a, hfa, hr⟩ := h
    exact ⟨v, a, rfl, hfa, hr.symm⟩

theorem bind_asObj_ok {α : Type} {v : JVal}
    {g : List (String × JVal) → Except Err α} {b : α}
    (h : (asObj v >>= g) = .ok b) : ∃ kvs, v = JVal.obj kvs := by
  cases v with
  | obj kvs => exact ⟨kvs, rfl⟩
  | null => simp only [asObj, exc_err_bind] at h; cases h
  | bool bb => simp only [asObj, exc_err_bind] at h; cases h
  | num q => simp only [asObj, exc_err_bind] at h; cases h
  | str s => simp only [asObj, exc_err_bind] at h; cases h
  | arr l => simp only [asObj, exc_err_bind] at h; cases h

theorem token_init_ok {v u cf ls : Option JVal} {spo : Option (Option Span)}
    {x : Token} (hx : Token.init v u spo cf ls = .ok x) :
    x = ⟨v.getD JVal.null, u.getD JVal.null, spo.getD none,
      cf.getD JVal.null, ls.getD (JVal.arr [])⟩ := by
  unfold Token.init at hx
  dsimp only at hx
  split at hx
  · cases hx
  · split at hx
    · cases hx
    · split at hx
      · rename_i heq
        injection hx with hx
        rw [← hx, heq]
      · rename_i q heq
        split at hx
        · injection hx with hx
          rw [← hx, heq]
        · cases hx
      · rename_i bb heq
        injection hx with hx
        rw [← hx, heq]
      · cases hx

theorem token_canon {iso : String → Option String}
    {now : String} {kvs : List (String × JVal)} {x : Token}
    {p : List (String × JVal)}
    (h1 : Token.from_dict iso now (JVal.obj kvs) = .ok x)
    (h2 : Token.project x = .ok p) : p = canonToken iso now kvs := by
  unfold Token.from_dict at h1
  simp only [asObj, exc_bind_ok] at h1
  obtain ⟨a, ha, sp, hsp, u2, hu, hx⟩ := h1
  injection ha with ha
  subst ha
  have hxeq := token_init_ok hx
  subst hxeq
  unfold Token.project at h2
  rcases optRecon_ok hsp with ⟨ho, hr⟩ | ⟨v, s, ho, hfa, hr⟩
  · subst hr
    simp only [Option.map, Option.getD, exc_pure_eq_ok, exc_ok_bind] at h2
    injection h2 with h2
    subst h2
    simp only [canonToken, getD, ho, Option.getD, List.append_nil,
      List.nil_append]
  · subst hr
    simp only [Option.map, Option.getD] at h2
    have hobj : ∃ svs, v = JVal.obj svs := by
      unfold Span.from_dict at hfa
      exact bind_asObj_ok hfa
    obtain ⟨svs, hv⟩ := hobj
    subst hv
    rcases hpr : Span.project s with e | ps
    · rw [hpr] at h2
      simp only [exc_err_bind] at h2
      cases h2
    · rw [hpr] at h2
      simp only [exc_ok_bind, exc_pure_eq_ok] at h2
      injection h2 with h2
      subst h2
      have hcanon := span_canon hfa hpr
      subst hcanon
      simp only [canonToken, getD, ho, Option.getD]

theorem asArr_ok {v : JVal} {l : List JVal} (h : asArr v = .ok l) :
    v = JVal.arr l := by
  cases v with
  | arr xs => injection h with h; rw [h]
  | null => cases h
  | bool bb => cases h
  | num q => cases h
  | str s => cases h
  | obj o => cases h

theorem mapME_isEmpty {γ α : Type} {f : γ → Except Err α} :
    ∀ {l : List γ} {ts : List α}, mapME f l = .ok ts →
      ts.isEmpty = l.isEmpty := by
  intro l
  induction l with
  | nil =>
    intro ts h
    injection h with h
    subst h
    rfl
  | cons hd tl ih =>
    intro ts h
    unfold mapME at h
    simp only [exc_bind_ok, exc_pure_ok] at h
    obtain ⟨a, ha, ys, hys, hts⟩ := h
    subst hts
    rfl

theorem feature_init_ok {mt lang enc ts : Option JVal}
    {tks : Option (List Token)} {alts : Option (List (List Token))}
    {x : Feature} (hx : Feature.init mt tks alts lang enc ts = .ok x) :
    x = ⟨mt.getD (JVal.str "text/plain"), tks.getD [], alts.getD [],
      lang.getD JVal.null, enc.getD JVal.null, ts.getD JVal.null⟩ := by
  unfold Feature.init at hx
  dsimp only at hx
  split at hx
  · injection hx with hx
    exact hx.symm
  · cases hx

theorem token_obj_canon {iso : String → Option String}
    {now : String} :
    ∀ (v : JVal) (a : Token), Token.from_dict iso now v = .ok a →
      ∀ b, (do let p ← Token.project a; pure (JVal.obj p)) = .ok b →
        b = JVal.obj (canonToken iso now (objEntries v)) := by
  intro v a hf b hg
  simp only [exc_bind_ok, exc_pure_ok] at hg
  obtain ⟨pa, hpa, hb⟩ := hg
  have hobj : ∃ tvs, v = JVal.obj tvs := by
    unfold Token.from_dict at hf
    exact bind_asObj_ok hf
  obtain ⟨tvs, hv⟩ := hobj
  subst hv
  rw [← hb, token_canon hf hpa]
  rfl

theorem token_list_canon {iso : String → Option String}
    {now : String} :
    ∀ (a : JVal) (as2 : List Token),
      (do let la ← asArr a; mapME (Token.from_dict iso now) la) = .ok as2 →
      ∀ b, (do
          let ps ← mapME (fun t => do
            let p ← Token.project t
            pure (JVal.obj p)) as2
          pure (JVal.arr ps)) = .ok b →
        b = JVal.arr ((arrElems a).map
          (fun t => JVal.obj (canonToken iso now (objEntries t)))) := by
  intro a as2 hf b hg
  simp only [exc_bind_ok, exc_pure_ok] at hf hg
  obtain ⟨la, hla, hmap⟩ := hf
  obtain ⟨ps, hps, hb⟩ := hg
  rw [← hb, mapME_canon (token_obj_canon) hmap hps, asArr_ok hla]
  rfl

theorem feature_canon {iso : String → Option String}
    {now : String} {kvs : List (String × JVal)}
    {x : Feature} {p : List (String × JVal)}
    (h1 : Feature.from_dict iso now (JVal.obj kvs) = .ok x)
    (h2 : Feature.project x = .ok p) : p = canonFeature iso now kvs := by
  unfold Feature.from_dict at h1
  simp only [asObj, exc_bind_ok] at h1
  obtain ⟨a, ha, tks, htks, alts, halts, u, hu, hx⟩ := h1
  injection ha with ha
  subst ha
  have hxeq := feature_init_ok hx
  subst hxeq
  unfold Feature.project at h2
  have htokens : ∀ tos, mapME (fun t => do
      let p ← Token.project t
      pure (JVal.obj p)) (tks.getD []) = .ok tos →
      tos = (match jlookup kvs "tokens" with
        | some (JVal.arr l) =>
          l.map (fun t => JVal.obj (canonToken iso now (objEntries t)))
        | _ => []) := by
    intro tos htos
    rcases optRecon_ok htks with ⟨ho, hr⟩ | ⟨v, ts, ho, hfa, hr⟩
    · subst hr
      rw [ho]
      injection htos with htos
      exact htos.symm
    · subst hr
      rw [ho]
      simp only [exc_bind_ok, exc_pure_ok] at hfa
      obtain ⟨l, hla, hmap⟩ := hfa
      rw [asArr_ok hla]
      simp only [Option.getD] at htos
      exact mapME_canon (token_obj_canon) hmap htos
  rcases optRecon_ok halts with ⟨ho_a, hr_a⟩ | ⟨va, als, ho_a, hfa_a, hr_a⟩
  · subst hr_a
    simp only [Option.getD, List.isEmpty_nil, if_true] at h2
    simp only [exc_bind_ok, exc_pure_ok, exc_pure_eq_ok, exc_ok_bind, Except.ok.injEq] at h2
    obtain ⟨tos, htos, hp⟩ := h2
    subst hp
    rw [htokens tos htos]
    simp only [canonFeature, getD, ho_a, Option.getD, List.append_nil,
      List.nil_append]
  · subst hr_a
    simp only [exc_bind_ok, exc_pure_ok] at hfa_a
    obtain ⟨l, hla, hmap⟩ := hfa_a
    have hve := asArr_ok hla
    subst hve
    have hemp := mapME_isEmpty hmap
    cases l with
    | nil =>
      injection hmap with hmap
      subst hmap
      simp only [Option.getD, List.isEmpty_nil, if_true] at h2
      simp only [exc_bind_ok, exc_pure_ok, exc_pure_eq_ok, exc_ok_bind, Except.ok.injEq] at h2
      obtain ⟨tos, htos, hp⟩ := h2
      subst hp
      rw [htokens tos htos]
      simp only [canonFeature, getD, ho_a, Option.getD, List.isEmpty_nil,
        if_true, List.append_nil, List.nil_append]
    | cons hd tl =>
      have hne : als.isEmpty = false := by rw [hemp]; rfl
      simp only [Option.getD, hne, Bool.false_eq_true, if_false] at h2
      simp only [exc_bind_ok, exc_pure_ok, exc_pure_eq_ok, exc_ok_bind, Except.ok.injEq] at h2
      obtain ⟨tos, htos, alts2, halts2, hp⟩ := h2
      subst hp
      rw [htokens tos htos]
      rw [mapME_canon (token_list_canon) hmap halts2]
      have hcne : (hd :: tl).isEmpty = false := rfl
      simp only [canonFeature, getD, ho_a, Option.getD, hcne,
        Bool.false_eq_true, if_false]

theorem asObj_ok {v : JVal} {kvs : List (String × JVal)}
    (h : asObj v = .ok kvs) : v = JVal.obj kvs := by
  cases v with
  | obj o => injection h with h; rw [h]
  | null => cases h
  | bool bb => cases h
  | num q => cases h
  | str s => cases h
  | arr l => cases h

theorem dialogEvent_init_ok {idv suv pid ctx : Option JVal}
    {spv : Option Span} {fsv : Option (List (String × Feature))}
    {x : DialogEvent}
    (hx : DialogEvent.init idv suv spv fsv pid ctx = .ok x) :
    ∃ i su sp, idv = some i ∧ suv = some su ∧ spv = some sp ∧
      (fsv.getD []).isEmpty = false ∧
      x = ⟨i, su, sp, fsv.getD [], pid.getD JVal.null, ctx.getD JVal.null⟩ := by
  cases idv with
  | none => simp only [DialogEvent.init] at hx; cases hx
  | some i =>
    cases suv with
    | none => simp only [DialogEvent.init] at hx; cases hx
    | some su =>
      cases spv with
      | none => simp only [DialogEvent.init] at hx; cases hx
      | some sp =>
        simp only [DialogEvent.init] at hx
        split at hx
        · cases hx
        · rename_i hne
          injection hx with hx
          have hne2 : (fsv.getD []).isEmpty = false := by
            cases hb : (fsv.getD []).isEmpty
            · rfl
            · exact absurd hb hne
          exact ⟨i, su, sp, rfl, rfl, rfl, hne2, hx.symm⟩

theorem feature_kv_canon {iso : String → Option String}
    {now : String} :
    ∀ (kv : String × JVal) (a : String × Feature),
      (do let f ← Feature.from_dict iso now kv.2; pure (kv.1, f)) = .ok a →
      ∀ b, (do let p ← Feature.project a.2; pure (a.1, JVal.obj p)) = .ok b →
        b = (kv.1, JVal.obj (canonFeature iso now (objEntries kv.2))) := by
  intro kv a hf b hg
  simp only [exc_bind_ok, exc_pure_ok] at hf hg
  obtain ⟨f, hf2, ha⟩ := hf
  obtain ⟨pa, hpa, hb⟩ := hg
  subst ha
  have hobj : ∃ fvs, kv.2 = JVal.obj fvs := by
    unfold Feature.from_dict at hf2
    exact bind_asObj_ok hf2
  obtain ⟨fvs, hv⟩ := hobj
  rw [hv] at hf2
  rw [← hb, feature_canon hf2 hpa, hv]
  rfl

theorem dialogEvent_canon {iso : String → Option String}
    {now : String} {kvs : List (String × JVal)}
    {x : DialogEvent} {p : List (String × JVal)}
    (h1 : DialogEvent.from_dict iso now (JVal.obj kvs) = .ok x)
    (h2 : DialogEvent.project x = .ok p) : p = canonDialogEvent iso now kvs := by
  unfold DialogEvent.from_dict at h1
  simp only [asObj, exc_bind_ok] at h1
  obtain ⟨a, ha, sp, hsp, fs, hfs, u, hu, hx⟩ := h1
  injection ha with ha
  subst ha
  obtain ⟨i, su, s2, hid, hsu, hsp2, hne, hxeq⟩ := dialogEvent_init_ok hx
  subst hxeq
  unfold DialogEvent.project at h2
  simp only [exc_bind_ok, exc_pure_ok, Except.ok.injEq] at h2
  obtain ⟨spr, hspr, fsr, hfsr, hp⟩ := h2
  subst hp
  rcases optRecon_ok hsp with ⟨ho, hr⟩ | ⟨v, s3, ho, hfa, hr⟩
  · rw [hr] at hsp2
    cases hsp2
  · rw [hr] at hsp2
    injection hsp2 with hsp2
    subst hsp2
    have hvobj : ∃ svs, v = JVal.obj svs := by
      unfold Span.from_dict at hfa
      exact bind_asObj_ok hfa
    obtain ⟨svs, hv⟩ := hvobj
    subst hv
    have hspanc := span_canon hfa hspr
    subst hspanc
    rcases optRecon_ok hfs with ⟨ho_f, hr_f⟩ | ⟨fv, flist, ho_f, hfa_f, hr_f⟩
    · rw [hr_f] at hne
      simp at hne
    · subst hr_f
      simp only [exc_bind_ok, exc_pure_ok] at hfa_f
      obtain ⟨fkvs, hfk, hmapf⟩ := hfa_f
      have hfve := asObj_ok hfk
      subst hfve
      simp only [Option.getD] at hfsr
      rw [mapME_canon (feature_kv_canon) hmapf hfsr]
      simp only [canonDialogEvent, getD, ho, ho_f, hid, hsu, Option.getD, objEntries]

theorem capability_init_ok {kp ds lg : Option JVal}
    {sl : Option (Option SupportedLayers)} {x : Capability}
    (hx : Capability.init kp ds lg sl = .ok x) :
    ∃ k d, kp = some k ∧ ds = some d ∧
      x = ⟨k, d, lg.getD JVal.null,
        (sl.getD none).getD (SupportedLayers.init none none)⟩ := by
  cases kp with
  | none => simp only [Capability.init] at hx; cases hx
  | some k =>
    cases ds with
    | none => simp only [Capability.init] at hx; cases hx
    | some d =>
      simp only [Capability.init] at hx
      injection hx with hx
      exact ⟨k, d, rfl, rfl, hx.symm⟩

theorem capability_canon {kvs : List (String × JVal)} {x : Capability}
    (h : Capability.from_dict (JVal.obj kvs) = .ok x) :
    Capability.project x = canonCapability kvs := by
  unfold Capability.from_dict at h
  simp only [asObj, exc_bind_ok] at h
  obtain ⟨a, ha, sl, hsl, u, hu, hx⟩ := h
  injection ha with ha
  subst ha
  obtain ⟨k, d, hk, hd, hxeq⟩ := capability_init_ok hx
  subst hxeq
  rcases optRecon_ok hsl with ⟨ho, hr⟩ | ⟨v, s, ho, hfa, hr⟩
  · subst hr
    simp only [Capability.project, canonCapability, canonSupportedLayers,
      SupportedLayers.project, SupportedLayers.init, getD, ho, hk, hd,
      Option.getD, Option.map, objEntries, jlookup]
  · subst hr
    have hvobj : ∃ svs, v = JVal.obj svs := by
      unfold SupportedLayers.from_dict at hfa
      exact bind_asObj_ok hfa
    obtain ⟨svs, hv⟩ := hvobj
    subst hv
    have hslc := supportedLayers_canon hfa
    simp only [Capability.project, canonCapability, getD, ho, hk, hd,
      Option.getD, Option.map, objEntries, hslc]

theorem capability_obj_canon :
    ∀ (v : JVal) (a : Capability), Capability.from_dict v = .ok a →
      JVal.obj a.project = JVal.obj (canonCapability (objEntries v)) := by
  intro v a hf
  have hobj : ∃ cvs, v = JVal.obj cvs := by
    unfold Capability.from_dict at hf
    exact bind_asObj_ok hf
  obtain ⟨cvs, hv⟩ := hobj
  subst hv
  rw [capability_canon hf]
  rfl

theorem manifest_init_ok {idn : Option Identification}
    {caps : Option (List Capability)} {x : Manifest}
    (hx : Manifest.init idn caps = .ok x) :
    ∃ i c, idn = some i ∧ caps = some c ∧ x = ⟨i, c⟩ := by
  cases idn with
  | none => simp only [Manifest.init] at hx; cases hx
  | some i =>
    cases caps with
    | none => simp only [Manifest.init] at hx; cases hx
    | some c =>
      simp only [Manifest.init] at hx
      injection hx with hx
      exact ⟨i, c, rfl, rfl, hx.symm⟩

theorem manifest_canon {kvs : List (String × JVal)} {x : Manifest}
    (h : Manifest.from_dict (JVal.obj kvs) = .ok x) :
    Manifest.project x = canonManifest kvs := by
  unfold Manifest.from_dict at h
  simp only [asObj, exc_bind_ok] at h
  obtain ⟨a, ha, idn, hidn, caps, hcaps, u, hu, hx⟩ := h
  injection ha with ha
  subst ha
  obtain ⟨i, c, hi, hc, hxeq⟩ := manifest_init_ok hx
  subst hxeq
  rcases optRecon_ok hidn with ⟨ho, hr⟩ | ⟨v, i2, ho, hfa, hr⟩
  · rw [hr] at hi
    cases hi
  · rw [hr] at hi
    injection hi with hi
    subst hi
    have hvobj : ∃ ivs, v = JVal.obj ivs := by
      unfold Identification.from_dict at hfa
      exact bind_asObj_ok hfa
    obtain ⟨ivs, hv⟩ := hvobj
    subst hv
    rcases optRecon_ok hcaps with ⟨ho_c, hr_c⟩ | ⟨cv, cl, ho_c, hfa_c, hr_c⟩
    · rw [hr_c] at hc
      cases hc
    · rw [hr_c] at hc
      injection hc with hc
      subst hc
      simp only [exc_bind_ok, exc_pure_ok] at hfa_c
      obtain ⟨l, hla, hmap⟩ := hfa_c
      have hve := asArr_ok hla
      subst hve
      have hcapmap := mapME_map_canon capability_obj_canon hmap
      simp only [Manifest.project, canonManifest, getD, ho, ho_c,
        Option.getD, objEntries, identification_canon hfa, hcapmap]

theorem conversant_init_ok {ido : Option (Option Identification)}
    {ps : Option JVal} {x : Conversant}
    (hx : Conversant.init ido ps = .ok x) :
    ∃ i, ido = some (some i) ∧ x = ⟨i, ps.getD (JVal.obj [])⟩ := by
  cases ido with
  | none => simp only [Conversant.init] at hx; cases hx
  | some oi =>
    cases oi with
    | none => simp only [Conversant.init] at hx; cases hx
    | some i =>
      simp only [Conversant.init] at hx
      injection hx with hx
      exact ⟨i, rfl, hx.symm⟩

theorem conversant_canon {kvs : List (String × JVal)} {x : Conversant}
    (h : Conversant.from_dict (JVal.obj kvs) = .ok x) :
    Conversant.project x = canonConversant kvs := by
  unfold Conversant.from_dict at h
  simp only [asObj, exc_bind_ok] at h
  obtain ⟨a, ha, idn, hidn, u, hu, hx⟩ := h
  injection ha with ha
  subst ha
  obtain ⟨i, hi, hxeq⟩ := conversant_init_ok hx
  subst hxeq
  rcases optRecon_ok hidn with ⟨ho, hr⟩ | ⟨v, i2, ho, hfa, hr⟩
  · rw [hr] at hi
    cases hi
  · rw [hr] at hi
    injection hi with hi
    injection hi with hi
    subst hi
    have hvobj : ∃ ivs, v = JVal.obj ivs := by
      unfold Identification.from_dict at hfa
      exact bind_asObj_ok hfa
    obtain ⟨ivs, hv⟩ := hvobj
    subst hv
    simp only [Conversant.project, canonConversant, getD, ho, Option.getD,
      objEntries, identification_canon hfa]

theorem conversant_obj_canon :
    ∀ (v : JVal) (a : Conversant), Conversant.from_dict v = .ok a →
      JVal.obj a.project = JVal.obj (canonConversant (objEntries v)) := by
  intro v a hf
  have hobj : ∃ cvs, v = JVal.obj cvs := by
    unfold Conversant.from_dict at hf
    exact bind_asObj_ok hf
  obtain ⟨cvs, hv⟩ := hobj
  subst hv
  rw [conversant_canon hf]
  rfl

theorem conversation_canon {fresh : String} {kvs : List (String × JVal)}
    {x : Conversation}
    (h : Conversation.from_dict fresh (JVal.obj kvs) = .ok x) :
    Conversation.project x = canonConversation fresh kvs := by
  unfold Conversation.from_dict at h
  simp only [asObj, exc_bind_ok, exc_pure_ok] at h
  obtain ⟨a, ha, cs, hcs, u, hu, hx⟩ := h
  injection ha with ha
  subst ha hx
  rcases optRecon_ok hcs with ⟨ho, hr⟩ | ⟨v, cl, ho, hfa, hr⟩
  · subst hr
    simp only [Conversation.project, canonConversation, Conversation.init,
      getD, ho, Option.getD, List.isEmpty_nil, if_true]
  · subst hr
    simp only [exc_bind_ok, exc_pure_ok] at hfa
    obtain ⟨l, hla, hmap⟩ := hfa
    have hve := asArr_ok hla
    subst hve
    have hemp := mapME_isEmpty hmap
    have hclmap := mapME_map_canon conversant_obj_canon hmap
    cases l with
    | nil =>
      injection hmap with hmap
      subst hmap
      simp only [Conversation.project, canonConversation, Conversation.init,
        getD, ho, Option.getD, List.isEmpty_nil, if_true]
    | cons hd tl =>
      have hne : cl.isEmpty = false := by rw [hemp]; rfl
      simp only [Conversation.project, canonConversation, Conversation.init,
        getD, ho, Option.getD, hne, Bool.false_eq_true, if_false,
        List.isEmpty_cons, hclmap]

theorem event_init_ok {eto rs ps : Option JVal} {toArg : Option (Option To)}
    {x : Event} (hx : Event.init eto toArg rs ps = .ok x) :
    ∃ et, eto = some et ∧
      x = ⟨et, toArg.getD none, rs.getD JVal.null, ps.getD (JVal.obj [])⟩ := by
  cases eto with
  | none => simp only [Event.init] at hx; cases hx
  | some et =>
    simp only [Event.init] at hx
    injection hx with hx
    exact ⟨et, rfl, hx.symm⟩

theorem event_canon {kvs : List (String × JVal)} {x : Event}
    {p : List (String × JVal)}
    (h1 : Event.from_dict (JVal.obj kvs) = .ok x)
    (h2 : Event.project x = .ok p) : p = canonEvent kvs := by
  unfold Event.from_dict at h1
  simp only [asObj, exc_bind_ok] at h1
  obtain ⟨a, ha, toV, htoV, u, hu, hx⟩ := h1
  injection ha with ha
  subst ha
  obtain ⟨et, het, hxeq⟩ := event_init_ok hx
  subst hxeq
  unfold Event.project at h2
  rcases optRecon_ok htoV with ⟨ho_t, hr_t⟩ | ⟨v, t, ho_t, hfa_t, hr_t⟩
  · subst hr_t
    by_cases hpt : pyTruthy ((jlookup kvs "parameters").getD (JVal.obj [])) = true
    · simp only [Option.map, Option.getD_none, Option.getD_some, hpt, if_true] at h2
      rcases hpd : pyDict ((jlookup kvs "parameters").getD (JVal.obj []))
        with e | pk
      · rw [hpd] at h2
        simp only [exc_err_bind] at h2
        cases h2
      · rw [hpd] at h2
        simp only [exc_ok_bind, exc_pure_eq_ok, Except.ok.injEq] at h2
        subst h2
        simp only [canonEvent, getD, het, ho_t, Option.getD_none, Option.getD_some, hpt, if_true,
          hpd, List.nil_append, List.append_nil]
    · simp only [Option.map, Option.getD_none, Option.getD_some, hpt, Bool.false_eq_true, if_false,
        exc_pure_eq_ok, exc_ok_bind, Except.ok.injEq] at h2
      subst h2
      simp only [canonEvent, getD, het, ho_t, Option.getD_none, Option.getD_some, hpt,
        Bool.false_eq_true, if_false, List.nil_append, List.append_nil]
  · subst hr_t
    have hvobj : ∃ tvs, v = JVal.obj tvs := by
      unfold To.from_dict at hfa_t
      exact bind_asObj_ok hfa_t
    obtain ⟨tvs, hv⟩ := hvobj
    subst hv
    have htc := to_canon hfa_t
    by_cases hpt : pyTruthy ((jlookup kvs "parameters").getD (JVal.obj [])) = true
    · simp only [Option.map, Option.getD_none, Option.getD_some, hpt, if_true] at h2
      rcases hpd : pyDict ((jlookup kvs "parameters").getD (JVal.obj []))
        with e | pk
      · rw [hpd] at h2
        simp only [exc_err_bind] at h2
        cases h2
      · rw [hpd] at h2
        simp only [exc_ok_bind, exc_pure_eq_ok, Except.ok.injEq] at h2
        subst h2
        simp only [canonEvent, getD, het, ho_t, Option.getD_none, Option.getD_some, hpt, if_true,
          hpd, htc, objEntries, List.nil_append, List.append_nil]
    · simp only [Option.map, Option.getD_none, Option.getD_some, hpt, Bool.false_eq_true, if_false,
        exc_pure_eq_ok, exc_ok_bind, Except.ok.injEq] at h2
      subst h2
      simp only [canonEvent, getD, het, ho_t, Option.getD_none, Option.getD_some, hpt,
        Bool.false_eq_true, if_false, htc, objEntries, List.nil_append,
        List.append_nil]

theorem envelope_init_ok {conv : Option Conversation} {snd : Option Sender}
    {sch : Option Schema} {evs : Option (List Event)} {x : Envelope}
    (hx : Envelope.init conv snd sch evs = .ok x) :
    ∃ c s, conv = some c ∧ snd = some s ∧
      x = ⟨c, s, sch.getD (Schema.init none none), evs.getD []⟩ := by
  cases conv with
  | none => simp only [Envelope.init] at hx; cases hx
  | some c =>
    cases snd with
    | none => simp only [Envelope.init] at hx; cases hx
    | some s =>
      simp only [Envelope.init] at hx
      injection hx with hx
      exact ⟨c, s, rfl, rfl, hx.symm⟩

theorem event_obj_canon :
    ∀ (v : JVal) (a : Event), Event.from_dict v = .ok a →
      ∀ b, (do let p ← Event.project a; pure (JVal.obj p)) = .ok b →
        b = JVal.obj (canonEvent (objEntries v)) := by
  intro v a hf b hg
  simp only [exc_bind_ok, exc_pure_ok] at hg
  obtain ⟨pa, hpa, hb⟩ := hg
  have hobj : ∃ evs2, v = JVal.obj evs2 := by
    unfold Event.from_dict at hf
    exact bind_asObj_ok hf
  obtain ⟨evs2, hv⟩ := hobj
  subst hv
  rw [← hb, event_canon hf hpa]
  rfl

theorem envelope_canon {fresh : String} {kvs : List (String × JVal)}
    {x : Envelope} {p : List (String × JVal)}
    (h1 : Envelope.from_dict fresh (JVal.obj kvs) = .ok x)
    (h2 : Envelope.project x = .ok p) : p = canonEnvelope fresh kvs := by
  unfold Envelope.from_dict at h1
  simp only [asObj, exc_bind_ok] at h1
  obtain ⟨a, ha, sch, hsch, conv, hconv, snd, hsnd, evs, hevs, u, hu, hx⟩ := h1
  injection ha with ha
  subst ha
  obtain ⟨c, sn, hc, hs, hxeq⟩ := envelope_init_ok hx
  subst hxeq
  unfold Envelope.project at h2
  simp only [exc_bind_ok, exc_pure_ok, Except.ok.injEq] at h2
  obtain ⟨evsP, hevsP, hp⟩ := h2
  subst hp
  rcases optRecon_ok hconv with ⟨ho_c, hr_c⟩ | ⟨cv, c2, ho_c, hfa_c, hr_c⟩
  · rw [hr_c] at hc
    cases hc
  · rw [hr_c] at hc
    injection hc with hc
    subst hc
    have hcvobj : ∃ cvs, cv = JVal.obj cvs := by
      unfold Conversation.from_dict at hfa_c
      exact bind_asObj_ok hfa_c
    obtain ⟨cvs, hcv⟩ := hcvobj
    subst hcv
    have hconvc := conversation_canon hfa_c
    rcases optRecon_ok hsnd with ⟨ho_s, hr_s⟩ | ⟨sv, s2, ho_s, hfa_s, hr_s⟩
    · rw [hr_s] at hs
      cases hs
    · rw [hr_s] at hs
      injection hs with hs
      subst hs
      have hsvobj : ∃ svs, sv = JVal.obj svs := by
        unfold Sender.from_dict at hfa_s
        exact bind_asObj_ok hfa_s
      obtain ⟨svs, hsv⟩ := hsvobj
      subst hsv
      have hsndc := sender_canon hfa_s
      have hsch_entry : Schema.project (sch.getD (Schema.init none none)) =
          canonSchema (objEntries (getD kvs "schema" (JVal.obj []))) := by
        rcases optRecon_ok hsch with ⟨ho_sch, hr_sch⟩ |
          ⟨schv, sc2, ho_sch, hfa_sch, hr_sch⟩
        · subst hr_sch
          simp only [Schema.project, Schema.init, canonSchema, getD, ho_sch,
            Option.getD_none, Option.getD_some, objEntries, jlookup,
            optEntry, JVal.isNull, List.append_nil]
        · subst hr_sch
          have hschvobj : ∃ scvs, schv = JVal.obj scvs := by
            unfold Schema.from_dict at hfa_sch
            exact bind_asObj_ok hfa_sch
          obtain ⟨scvs, hscv⟩ := hschvobj
          subst hscv
          simp only [getD, ho_sch, Option.getD_none, Option.getD_some,
            objEntries, schema_canon hfa_sch]
      have hev_entry : (if (evs.getD []).isEmpty then
            ([] : List (String × JVal))
          else [("events", JVal.arr evsP)]) =
          (match jlookup kvs "events" with
            | some (JVal.arr l) =>
              if l.isEmpty then []
              else [("events", JVal.arr (l.map
                (fun ev => JVal.obj (canonEvent (objEntries ev)))))]
            | _ => []) := by
        rcases optRecon_ok hevs with ⟨ho_e, hr_e⟩ |
          ⟨ev, el, ho_e, hfa_e, hr_e⟩
        · subst hr_e
          rw [ho_e]
          simp only [Option.getD_none, List.isEmpty_nil, if_true]
        · subst hr_e
          simp only [exc_bind_ok, exc_pure_ok] at hfa_e
          obtain ⟨l, hla, hmap⟩ := hfa_e
          have hve := asArr_ok hla
          subst hve
          rw [ho_e]
          simp only [Option.getD_some] at hevsP ⊢
          have hemp := mapME_isEmpty hmap
          have hevmap := mapME_canon event_obj_canon hmap hevsP
          subst hevmap
          cases l with
          | nil =>
            injection hmap with hmap
            subst hmap
            simp only [List.isEmpty_nil, if_true]
          | cons hd tl =>
            have hne : el.isEmpty = false := by rw [hemp]; rfl
            simp only [hne, List.isEmpty_cons, Bool.false_eq_true, if_false,
              List.map_cons]
      rw [hconvc, hsndc, hev_entry, hsch_entry]
      simp only [canonEnvelope, getD, ho_c, ho_s, objEntries,
        Option.getD_some]

/-- Claim C1 (code bug): round-trip fidelity fails for a valid `Span` whose
start is given only as `startOffset` (with `startTime` explicitly null).
The span constructs and projects to `{"startOffset": "PT5S"}`, but
reconstructing that projection raises, because the `startTime`
`default_factory` fills in the current time and the validator then sees
both start forms set. -/
theorem claim_C1 :
    Span.init "2026-01-01T00:00:00" (some JVal.null) (some (JVal.str "PT5S"))
        none none =
      .ok ⟨JVal.null, JVal.str "PT5S", JVal.null, JVal.null⟩
  ∧ Span.project ⟨JVal.null, JVal.str "PT5S", JVal.null, JVal.null⟩ =
      .ok [("startOffset", JVal.str "PT5S")]
  ∧ ∀ iso : String → Option String,
      isErr (Span.from_dict iso "2026-01-01T00:00:01"
        (JVal.obj [("startOffset", JVal.str "PT5S")])) = true :=
  ⟨rfl, rfl, fun _ => rfl⟩

/-- Claim C2 (code bug): constructing a `Span` with only `startOffset` and
only `endOffset` (the other keywords omitted) raises instead of succeeding,
because the omitted `startTime` defaults to the current time; and
constructing with no arguments at all succeeds (with an auto-filled
`startTime`) instead of failing the neither-start-form rule. -/
theorem claim_C2 :
    isErr (Span.init "2026-01-01T00:00:00" none (some (JVal.str "PT1S")) none
      (some (JVal.str "PT2S"))) = true
  ∧ Span.init "2026-01-01T00:00:00" none none none none =
      .ok ⟨JVal.str "2026-01-01T00:00:00", JVal.null, JVal.null, JVal.null⟩ :=
  ⟨rfl, rfl⟩

/-- Claim C4 counterexample: constructing a `Sender` directly with
`speakerUri` explicitly null does not fail; it returns a `Sender` whose
`speakerUri` is null (there is no `__post_init__` check on `Sender`). -/
theorem claim_C4_counterexample :
    Sender.init (some JVal.null) none = .ok ⟨JVal.null, JVal.null⟩ := rfl

/-- Claim C4 (amended): reconstructing a `Sender` from a mapping lacking
the `speakerUri` key fails (missing required argument) before any value is
produced; but direct construction with `speakerUri` explicitly null is not
validated and yields a `Sender` whose `speakerUri` is null. -/
theorem claim_C4 :
    (∀ kvs, jlookup kvs "speakerUri" = none →
      isErr (Sender.from_dict (JVal.obj kvs)) = true)
  ∧ (∀ u, ∃ s, Sender.init (some JVal.null) u = .ok s ∧
      s.speakerUri = JVal.null) := by
  constructor
  · intro kvs hnone
    unfold Sender.from_dict
    simp only [asObj, exc_ok_bind]
    rcases hck : checkKeys kvs ["speakerUri", "serviceUrl"] with e | uu
    · rw [exc_err_bind]
      rfl
    · rw [exc_ok_bind, hnone]
      rfl
  · intro u
    exact ⟨⟨JVal.null, u.getD JVal.null⟩, rfl, rfl⟩

/-- Claim C4 witness: concrete instances of both parts. -/
theorem claim_C4_witness :
    isErr (Sender.from_dict (JVal.obj [("serviceUrl", JVal.str "x")])) = true
  ∧ ∃ s, Sender.init (some JVal.null) none = .ok s ∧
      s.speakerUri = JVal.null :=
  ⟨claim_C4.1 [("serviceUrl", JVal.str "x")] rfl, claim_C4.2 none⟩

/-- Claim C5: `Schema` construction turns both an omitted and an explicitly
null `version` into `"1.0.0"`, and every constructed `Schema` has a
non-null version. -/
theorem claim_C5 :
    (∀ u, Schema.init none u = ⟨JVal.str "1.0.0", u.getD JVal.null⟩)
  ∧ (∀ u, Schema.init (some JVal.null) u =
      ⟨JVal.str "1.0.0", u.getD JVal.null⟩)
  ∧ (∀ v u, (Schema.init v u).version.isNull = false) := by
  refine ⟨fun u => rfl, fun u => rfl, fun v u => ?_⟩
  cases v with
  | none => rfl
  | some w => cases w <;> rfl

theorem isErr_bind {α β : Type} {x : Except Err α} {f : α → Except Err β}
    (h : isErr x = true) : isErr (x >>= f) = true := by
  cases x with
  | error e => rfl
  | ok a => cases h

theorem identification_null_speakerUri_err {ikvs : List (String × JVal)}
    (h : jlookup ikvs "speakerUri" = some JVal.null) :
    isErr (Identification.from_dict (JVal.obj ikvs)) = true := by
  unfold Identification.from_dict
  simp only [asObj, exc_ok_bind]
  rcases hck : checkKeys ikvs ["speakerUri", "serviceUrl", "organization",
      "conversationalName", "department", "role", "synopsis"] with e | uu
  · rw [exc_err_bind]
    rfl
  · rw [exc_ok_bind, h]
    cases hsv : jlookup ikvs "serviceUrl" with
    | none => rfl
    | some sv => rfl

theorem conversant_bad_identification_err {bkvs ikvs : List (String × JVal)}
    (h1 : jlookup bkvs "identification" = some (JVal.obj ikvs))
    (h2 : jlookup ikvs "speakerUri" = some JVal.null) :
    isErr (Conversant.from_dict (JVal.obj bkvs)) = true := by
  unfold Conversant.from_dict
  simp only [asObj, exc_ok_bind]
  rw [h1]
  unfold optRecon
  apply isErr_bind
  apply isErr_bind
  exact identification_null_speakerUri_err h2

/-- Claim C6 counterexample: a scalar field of the wrong shape is accepted
unvalidated — reconstructing a `Sender` whose `speakerUri` is the number
123 succeeds and stores the number. -/
theorem claim_C6_counterexample :
    Sender.from_dict (JVal.obj [("speakerUri", JVal.num 123)]) =
      .ok ⟨JVal.num 123, JVal.null⟩ := rfl

/-- Claim C6 (amended): reconstruction from a mapping missing a required
key fails before any value escapes, and a nested validation failure (an
identification with null `speakerUri` inside a conversant inside an
envelope) propagates to the outer reconstruction; but scalar fields of the
wrong shape are stored without any type validation. -/
theorem claim_C6 :
    (∀ kvs, jlookup kvs "speakerUri" = none →
        isErr (Identification.from_dict (JVal.obj kvs)) = true)
  ∧ (∀ (fresh : String) (kvs ckvs : List (String × JVal)) (l : List JVal)
        (bkvs ikvs : List (String × JVal)),
        jlookup kvs "conversation" = some (JVal.obj ckvs) →
        jlookup ckvs "conversants" = some (JVal.arr l) →
        JVal.obj bkvs ∈ l →
        jlookup bkvs "identification" = some (JVal.obj ikvs) →
        jlookup ikvs "speakerUri" = some JVal.null →
        isErr (Envelope.from_dict fresh (JVal.obj kvs)) = true)
  ∧ (∀ v, Sender.from_dict (JVal.obj [("speakerUri", v)]) =
        .ok ⟨v, JVal.null⟩) := by
  refine ⟨?_, ?_, fun v => rfl⟩
  · intro kvs hnone
    unfold Identification.from_dict
    simp only [asObj, exc_ok_bind]
    rcases hck : checkKeys kvs ["speakerUri", "serviceUrl", "organization",
        "conversationalName", "department", "role", "synopsis"] with e | uu
    · rw [exc_err_bind]
      rfl
    · rw [exc_ok_bind, hnone]
      cases hsv : jlookup kvs "serviceUrl" with
      | none => rfl
      | some sv => rfl
  · intro fresh kvs ckvs l bkvs ikvs hconv hcl hmem hid hsu
    unfold Envelope.from_dict
    simp only [asObj, exc_ok_bind]
    rcases hsch : optRecon Schema.from_dict (jlookup kvs "schema")
        with e | sch
    · rw [exc_err_bind]
      rfl
    · rw [exc_ok_bind, hconv]
      unfold optRecon
      apply isErr_bind
      unfold Conversation.from_dict
      simp only [asObj, exc_ok_bind]
      rw [hcl]
      unfold optRecon
      apply isErr_bind
      simp only [asArr, exc_ok_bind]
      apply isErr_bind
      apply isErr_bind
      exact mapME_err hmem (conversant_bad_identification_err hid hsu)

/-- Claim C6 witness: concrete instances of all three parts. -/
theorem claim_C6_witness :
    isErr (Identification.from_dict (JVal.obj [])) = true
  ∧ isErr (Envelope.from_dict "F" (JVal.obj [("conversation", JVal.obj
      [("conversants", JVal.arr [JVal.obj [("identification", JVal.obj
        [("speakerUri", JVal.null)])]])])])) = true
  ∧ Sender.from_dict (JVal.obj [("speakerUri", JVal.num 123)]) =
      .ok ⟨JVal.num 123, JVal.null⟩ :=
  ⟨claim_C6.1 [] rfl,
   claim_C6.2.1 "F" _ _ _ _ _ rfl rfl (List.Mem.head _) rfl rfl,
   claim_C6.2.2 (JVal.num 123)⟩

theorem isNull_null : JVal.isNull JVal.null = true := rfl

/-- Claim C7: `Token` construction fails when both of `value`/`valueUrl`
are supplied, fails when neither is supplied, fails for a numeric
confidence outside [0, 1], and succeeds at the boundary confidences 1 and 0
given exactly one of `value`/`valueUrl`. -/
theorem claim_C7 :
    (∀ (v u : JVal) sp c l, v.isNull = false → u.isNull = false →
        isErr (Token.init (some v) (some u) sp c l) = true)
  ∧ (∀ sp c l, isErr (Token.init none none sp c l) = true)
  ∧ (∀ (q : ℚ) (v : JVal), v.isNull = false → ¬(0 ≤ q ∧ q ≤ 1) →
        isErr (Token.init (some v) none none (some (JVal.num q)) none) = true)
  ∧ (∀ (v : JVal), v.isNull = false →
        Token.init (some v) none none (some (JVal.num 1)) none =
          .ok ⟨v, JVal.null, none, JVal.num 1, JVal.arr []⟩)
  ∧ (∀ (v : JVal), v.isNull = false →
        Token.init (some v) none none (some (JVal.num 0)) none =
          .ok ⟨v, JVal.null, none, JVal.num 0, JVal.arr []⟩) := by
  refine ⟨?_, ?_, ?_, ?_, ?_⟩
  · intro v u sp c l hv hu
    unfold Token.init
    dsimp only
    simp only [Option.getD_some, hv, hu, Bool.and_self, Bool.false_eq_true,
      if_false, Bool.not_false, Bool.and_false, Bool.false_and, if_true,
      Bool.and_true, Bool.true_and]
    rfl
  · intro sp c l
    rfl
  · intro q v hv hq
    unfold Token.init
    dsimp only
    simp only [Option.getD_some, Option.getD_none, hv, isNull_null,
      Bool.and_false, Bool.false_eq_true, if_false, Bool.not_false,
      Bool.and_true, Bool.true_and, Bool.not_true, Bool.false_and]
    rw [if_neg hq]
    rfl
  · intro v hv
    unfold Token.init
    dsimp only
    simp only [Option.getD_some, Option.getD_none, hv, isNull_null,
      Bool.and_false, Bool.false_eq_true, if_false, Bool.not_false,
      Bool.and_true, Bool.true_and, Bool.not_true, Bool.false_and]
    rw [if_pos (by norm_num)]
  · intro v hv
    unfold Token.init
    dsimp only
    simp only [Option.getD_some, Option.getD_none, hv, isNull_null,
      Bool.and_false, Bool.false_eq_true, if_false, Bool.not_false,
      Bool.and_true, Bool.true_and, Bool.not_true, Bool.false_and]
    rw [if_pos (by norm_num)]

/-- Claim C7 witness: both/neither failures, out-of-range confidences 1.01
and -0.1 failing, and the boundary confidences succeeding. -/
theorem claim_C7_witness :
    isErr (Token.init (some (JVal.str "a")) (some (JVal.str "b")) none none
      none) = true
  ∧ isErr (Token.init none none none none none) = true
  ∧ isErr (Token.init (some (JVal.str "a")) none none
      (some (JVal.num 1.01)) none) = true
  ∧ isErr (Token.init (some (JVal.str "a")) none none
      (some (JVal.num (-0.1))) none) = true
  ∧ Token.init (some (JVal.str "a")) none none (some (JVal.num 1)) none =
      .ok ⟨JVal.str "a", JVal.null, none, JVal.num 1, JVal.arr []⟩
  ∧ Token.init (some (JVal.str "a")) none none (some (JVal.num 0)) none =
      .ok ⟨JVal.str "a", JVal.null, none, JVal.num 0, JVal.arr []⟩ :=
  ⟨claim_C7.1 (JVal.str "a") (JVal.str "b") none none none rfl rfl,
   claim_C7.2.1 none none none,
   claim_C7.2.2.1 1.01 (JVal.str "a") rfl (by norm_num),
   claim_C7.2.2.1 (-0.1) (JVal.str "a") rfl (by norm_num),
   claim_C7.2.2.2.1 (JVal.str "a") rfl,
   claim_C7.2.2.2.2 (JVal.str "a") rfl⟩

/-- Claim C8: a `Conversation` constructed without an id gets the
generated identifier `"conv:" ++ uuid`, which is non-null, and distinct
uuids give distinct identifiers. -/
theorem claim_C8 :
    (∀ (fresh : String) (cs : Option (List Conversant)),
        (Conversation.init fresh none cs).id = JVal.str ("conv:" ++ fresh))
  ∧ (∀ (fresh : String) (cs : Option (List Conversant)),
        (Conversation.init fresh none cs).id.isNull = false)
  ∧ (∀ (f1 f2 : String) (cs1 cs2 : Option (List Conversant)), f1 ≠ f2 →
        (Conversation.init f1 none cs1).id ≠
          (Conversation.init f2 none cs2).id) := by
  refine ⟨fun fresh cs => rfl, fun fresh cs => rfl, ?_⟩
  intro f1 f2 cs1 cs2 hne h
  apply hne
  simp only [Conversation.init, Option.getD_none, JVal.isNull, if_true] at h
  injection h with h
  have hd := congrArg String.data h
  simp only [String.data_append] at hd
  exact String.ext (List.append_cancel_left hd)

/-- Claim C8 witness: two concrete distinct uuids give distinct ids. -/
theorem claim_C8_witness :
    (Conversation.init "aa" none none).id ≠
      (Conversation.init "bb" none none).id :=
  claim_C8.2.2 "aa" "bb" none none (by decide)

/-- Claim C9: `split_kwargs` maps every dataclass field exactly once (to
the kwargs value when present, `None` otherwise), its undefined part is
exactly the kwargs entries whose keys are not fields, and a class without
dataclass fields gives an empty defined part and the whole kwargs back. -/
theorem claim_C9 :
    (∀ (fields : List String) (kwargs : List (String × JVal)),
        (split_kwargs fields kwargs).1.map Prod.fst = fields)
  ∧ (∀ (fields : List String) (kwargs : List (String × JVal)) (f : String),
        f ∈ fields →
        jlookup (split_kwargs fields kwargs).1 f =
          some ((jlookup kwargs f).getD JVal.null))
  ∧ (∀ (fields : List String) (kwargs : List (String × JVal)),
        (split_kwargs fields kwargs).2 =
          kwargs.filter (fun kv => !fields.contains kv.1))
  ∧ (∀ kwargs : List (String × JVal), split_kwargs [] kwargs = ([], kwargs)) := by
  refine ⟨?_, ?_, fun fields kwargs => rfl, ?_⟩
  · intro fields kwargs
    induction fields with
    | nil => rfl
    | cons hd tl ih =>
      simp only [split_kwargs, List.map_cons] at ih ⊢
      rw [ih]
  · intro fields kwargs f
    induction fields with
    | nil =>
      intro hf
      cases hf
    | cons hd tl ih =>
      intro hf
      simp only [split_kwargs, List.map_cons, jlookup]
      by_cases heq : hd = f
      · rw [if_pos heq, heq]
      · rw [if_neg heq]
        rcases List.mem_cons.mp hf with he | ht
        · exact absurd he.symm heq
        · exact ih ht
  · intro kwargs
    simp only [split_kwargs, List.map_nil]
    induction kwargs with
    | nil => rfl
    | cons hd tl ih =>
      simp only [List.filter_cons, List.contains_nil, Bool.not_false,
        if_true] at ih ⊢
      rw [Prod.mk.injEq] at ih ⊢
      exact ⟨rfl, by rw [List.cons.injEq]; exact ⟨rfl, ih.2⟩⟩

/-- Claim C9 witness: a concrete split with one overlapping key. -/
theorem claim_C9_witness :
    jlookup (split_kwargs ["a", "b"]
      [("b", JVal.num 2), ("c", JVal.num 3)]).1 "b" = some (JVal.num 2) :=
  claim_C9.2.1 ["a", "b"] [("b", JVal.num 2), ("c", JVal.num 3)] "b"
    (by decide)

theorem optEntry_fst {a k : String} {v : JVal}
    (h : a ∈ (optEntry k v).map Prod.fst) : a = k := by
  rw [optEntry_eq] at h
  split at h
  · cases h
  · simp only [List.map_cons, List.map_nil, List.mem_singleton] at h
    exact h

/-- Claim C10: for a `To` whose private flag is a boolean, the projection
contains the key `"private"` exactly when the flag is true, and a `To`
constructed with `private` explicitly false projects identically to one
constructed with `private` omitted. -/
theorem claim_C10 :
    (∀ (su sv : Option JVal) (b : Bool) (x : To),
        To.init su sv (some (JVal.bool b)) = .ok x →
        (("private" ∈ (To.project x).map Prod.fst) ↔ b = true))
  ∧ (∀ (su sv : Option JVal) (x y : To),
        To.init su sv (some (JVal.bool false)) = .ok x →
        To.init su sv none = .ok y → To.project x = To.project y) := by
  constructor
  · intro su sv b x hx
    have hxe : x = ⟨su.getD JVal.null, sv.getD JVal.null, JVal.bool b⟩ := by
      unfold To.init at hx
      dsimp only at hx
      split at hx
      · cases hx
      · injection hx with hx
        exact hx.symm
    subst hxe
    simp only [To.project]
    constructor
    · intro hmem
      cases b with
      | false =>
        simp only [truthyEntry, pyTruthy, Bool.false_eq_true, if_false,
          List.append_nil, List.map_append, List.mem_append] at hmem
        rcases hmem with h | h
        · exact absurd (optEntry_fst h) (by decide)
        · exact absurd (optEntry_fst h) (by decide)
      | true => rfl
    · intro hb
      subst hb
      simp [truthyEntry, pyTruthy]
  · intro su sv x y hx hy
    have hxe : x = ⟨su.getD JVal.null, sv.getD JVal.null, JVal.bool false⟩ := by
      unfold To.init at hx
      dsimp only at hx
      split at hx
      · cases hx
      · injection hx with hx
        exact hx.symm
    have hye : y = ⟨su.getD JVal.null, sv.getD JVal.null, JVal.bool false⟩ := by
      unfold To.init at hy
      dsimp only at hy
      split at hy
      · cases hy
      · injection hy with hy
        exact hy.symm
    rw [hxe, hye]

/-- Claim C10 witness: concrete instances of both parts. -/
theorem claim_C10_witness :
    ("private" ∈ (To.project ⟨JVal.str "s", JVal.null,
      JVal.bool true⟩).map Prod.fst)
  ∧ To.project ⟨JVal.str "s", JVal.null, JVal.bool false⟩ =
      To.project ⟨JVal.str "s", JVal.null, JVal.bool false⟩ :=
  ⟨(claim_C10.1 (some (JVal.str "s")) none true _ rfl).mpr rfl,
   claim_C10.2 (some (JVal.str "s")) none _ _ rfl rfl⟩

/-- Claim C3 counterexample: projecting a reconstructed record can
introduce keys absent from the input mapping — reconstructing a `Schema`
from `{"url": "u"}` (which has no optional-absent keys to remove) projects
to a mapping that gains the defaulted key `"version"`. -/
theorem claim_C3_counterexample :
    Schema.from_dict (JVal.obj [("url", JVal.str "u")]) =
      .ok ⟨JVal.str "1.0.0", JVal.str "u"⟩
  ∧ (Schema.project ⟨JVal.str "1.0.0", JVal.str "u"⟩).map Prod.fst ≠
      ([("url", JVal.str "u")].map Prod.fst : List String) :=
  ⟨rfl, by decide⟩

/-- Claim C3 (amended): for every record type, an input mapping that
reconstructs successfully and whose reconstructed record projects
successfully projects to its canonical form: the mapping reordered to
field declaration order, with absent-or-null optional keys removed, falsy
optional flags and empty optional collections removed, always-projected
defaulted fields (such as `Schema.version`, `Feature.mimeType`,
`SupportedLayers.input`/`output`, `Capability.supportedLayers`, and the
generated `Conversation.id`) inserted even when absent from the input, and
a string `endTime` replaced by its normalized rendering
`isoformat(fromisoformat(s))` — the parameter `iso` — rather than kept
verbatim.  The statement quantifies over every parse function `iso`, so it
holds in particular for the Python datetime library one. -/
theorem claim_C3 :
    (∀ (iso : String → Option String) (now : String)
        (kvs : List (String × JVal)) (x : Span)
        (p : List (String × JVal)),
        Span.from_dict iso now (JVal.obj kvs) = .ok x →
        Span.project x = .ok p → p = canonSpan iso now kvs)
  ∧ (∀ (iso : String → Option String) (now : String)
        (kvs : List (String × JVal)) (x : Token)
        (p : List (String × JVal)),
        Token.from_dict iso now (JVal.obj kvs) = .ok x →
        Token.project x = .ok p → p = canonToken iso now kvs)
  ∧ (∀ (iso : String → Option String) (now : String)
        (kvs : List (String × JVal)) (x : Feature)
        (p : List (String × JVal)),
        Feature.from_dict iso now (JVal.obj kvs) = .ok x →
        Feature.project x = .ok p → p = canonFeature iso now kvs)
  ∧ (∀ (iso : String → Option String) (now : String)
        (kvs : List (String × JVal)) (x : DialogEvent)
        (p : List (String × JVal)),
        DialogEvent.from_dict iso now (JVal.obj kvs) = .ok x →
        DialogEvent.project x = .ok p → p = canonDialogEvent iso now kvs)
  ∧ (∀ (kvs : List (String × JVal)) (x : Identification),
        Identification.from_dict (JVal.obj kvs) = .ok x →
        Identification.project x = canonIdentification kvs)
  ∧ (∀ (kvs : List (String × JVal)) (x : SupportedLayers),
        SupportedLayers.from_dict (JVal.obj kvs) = .ok x →
        SupportedLayers.project x = canonSupportedLayers kvs)
  ∧ (∀ (kvs : List (String × JVal)) (x : Capability),
        Capability.from_dict (JVal.obj kvs) = .ok x →
        Capability.project x = canonCapability kvs)
  ∧ (∀ (kvs : List (String × JVal)) (x : Manifest),
        Manifest.from_dict (JVal.obj kvs) = .ok x →
        Manifest.project x = canonManifest kvs)
  ∧ (∀ (kvs : List (String × JVal)) (x : Schema),
        Schema.from_dict (JVal.obj kvs) = .ok x →
        Schema.project x = canonSchema kvs)
  ∧ (∀ (kvs : List (String × JVal)) (x : Conversant),
        Conversant.from_dict (JVal.obj kvs) = .ok x →
        Conversant.project x = canonConversant kvs)
  ∧ (∀ (fresh : String) (kvs : List (String × JVal)) (x : Conversation),
        Conversation.from_dict fresh (JVal.obj kvs) = .ok x →
        Conversation.project x = canonConversation fresh kvs)
  ∧ (∀ (kvs : List (String × JVal)) (x : Sender),
        Sender.from_dict (JVal.obj kvs) = .ok x →
        Sender.project x = canonSender kvs)
  ∧ (∀ (kvs : List (String × JVal)) (x : To),
        To.from_dict (JVal.obj kvs) = .ok x →
        To.project x = canonTo kvs)
  ∧ (∀ (kvs : List (String × JVal)) (x : Event)
        (p : List (String × JVal)),
        Event.from_dict (JVal.obj kvs) = .ok x →
        Event.project x = .ok p → p = canonEvent kvs)
  ∧ (∀ (fresh : String) (kvs : List (String × JVal)) (x : Envelope)
        (p : List (String × JVal)),
        Envelope.from_dict fresh (JVal.obj kvs) = .ok x →
        Envelope.project x = .ok p → p = canonEnvelope fresh kvs) :=
  ⟨fun _ _ _ _ _ h1 h2 => span_canon h1 h2,
   fun _ _ _ _ _ h1 h2 => token_canon h1 h2,
   fun _ _ _ _ _ h1 h2 => feature_canon h1 h2,
   fun _ _ _ _ _ h1 h2 => dialogEvent_canon h1 h2,
   fun _ _ h => identification_canon h,
   fun _ _ h => supportedLayers_canon h,
   fun _ _ h => capability_canon h,
   fun _ _ h => manifest_canon h,
   fun _ _ h => schema_canon h,
   fun _ _ h => conversant_canon h,
   fun _ _ _ h => conversation_canon h,
   fun _ _ h => sender_canon h,
   fun _ _ h => to_canon h,
   fun _ _ _ h1 h2 => event_canon h1 h2,
   fun _ _ _ _ h1 h2 => envelope_canon h1 h2⟩

/-- Claim C3 witness: one concrete reconstruct-then-project canonicalization
per record type. -/
theorem claim_C3_witness :
    Span.project ⟨JVal.str "t", JVal.null,
      JVal.str "2024-01-01T00:00:00", JVal.null⟩ =
      .ok (canonSpan
        (fun s => if s = "2024-01-01" then some "2024-01-01T00:00:00"
          else none)
        "T0" [("startTime", JVal.str "t"),
          ("endTime", JVal.str "2024-01-01")])
  ∧ Token.project ⟨JVal.str "v", JVal.null, none, JVal.null, JVal.arr []⟩ =
      .ok (canonToken (fun _ => none) "T0" [("value", JVal.str "v")])
  ∧ Feature.project ⟨JVal.str "text/plain", [], [], JVal.null, JVal.null,
      JVal.null⟩ = .ok (canonFeature (fun _ => none) "T0" [])
  ∧ DialogEvent.project ⟨JVal.str "i", JVal.str "s",
      ⟨JVal.str "T0", JVal.null, JVal.null, JVal.null⟩,
      [("text", ⟨JVal.str "text/plain", [], [], JVal.null, JVal.null,
        JVal.null⟩)], JVal.null, JVal.null⟩ =
      .ok (canonDialogEvent (fun _ => none) "T0" [("id", JVal.str "i"),
        ("speakerUri", JVal.str "s"), ("span", JVal.obj []),
        ("features", JVal.obj [("text", JVal.obj [])])])
  ∧ Identification.project ⟨JVal.str "s", JVal.str "u", JVal.null, JVal.null,
      JVal.null, JVal.null, JVal.null⟩ =
      canonIdentification [("speakerUri", JVal.str "s"),
        ("serviceUrl", JVal.str "u")]
  ∧ SupportedLayers.project ⟨JVal.arr [JVal.str "text"],
      JVal.arr [JVal.str "text"]⟩ = canonSupportedLayers []
  ∧ Capability.project ⟨JVal.arr [], JVal.arr [], JVal.null,
      ⟨JVal.arr [JVal.str "text"], JVal.arr [JVal.str "text"]⟩⟩ =
      canonCapability [("keyphrases", JVal.arr []),
        ("descriptions", JVal.arr [])]
  ∧ Manifest.project ⟨⟨JVal.str "s", JVal.str "u", JVal.null, JVal.null,
      JVal.null, JVal.null, JVal.null⟩, []⟩ =
      canonManifest [("identification", JVal.obj [("speakerUri",
        JVal.str "s"), ("serviceUrl", JVal.str "u")]),
        ("capabilities", JVal.arr [])]
  ∧ Schema.project ⟨JVal.str "1.0.0", JVal.null⟩ = canonSchema []
  ∧ Conversant.project ⟨⟨JVal.str "s", JVal.str "u", JVal.null, JVal.null,
      JVal.null, JVal.null, JVal.null⟩, JVal.obj []⟩ =
      canonConversant [("identification", JVal.obj [("speakerUri",
        JVal.str "s"), ("serviceUrl", JVal.str "u")])]
  ∧ Conversation.project ⟨JVal.str ("conv:" ++ "F"), []⟩ =
      canonConversation "F" []
  ∧ Sender.project ⟨JVal.str "s", JVal.null⟩ =
      canonSender [("speakerUri", JVal.str "s")]
  ∧ To.project ⟨JVal.str "s", JVal.null, JVal.bool false⟩ =
      canonTo [("speakerUri", JVal.str "s")]
  ∧ Event.project ⟨JVal.str "e", none, JVal.null, JVal.obj []⟩ =
      .ok (canonEvent [("eventType", JVal.str "e")])
  ∧ Envelope.project ⟨⟨JVal.str ("conv:" ++ "F"), []⟩,
      ⟨JVal.str "s", JVal.null⟩, ⟨JVal.str "1.0.0", JVal.null⟩, []⟩ =
      .ok (canonEnvelope "F" [("conversation", JVal.obj []),
        ("sender", JVal.obj [("speakerUri", JVal.str "s")])]) := by
  refine ⟨?_, ?_, ?_, ?_, ?_, ?_, ?_, ?_, ?_, ?_, ?_, ?_, ?_, ?_, ?_⟩
  · have h := claim_C3.1
      (fun s => if s = "2024-01-01" then some "2024-01-01T00:00:00"
        else none)
      "T0" [("startTime", JVal.str "t"), ("endTime", JVal.str "2024-01-01")]
      ⟨JVal.str "t", JVal.null, JVal.str "2024-01-01T00:00:00", JVal.null⟩
      [("startTime", JVal.str "t"),
       ("endTime", JVal.str "2024-01-01T00:00:00")] rfl rfl
    rw [← h]
    rfl
  · have h := claim_C3.2.1 (fun _ => none) "T0" [("value", JVal.str "v")]
      ⟨JVal.str "v", JVal.null, none, JVal.null, JVal.arr []⟩
      [("value", JVal.str "v")] rfl rfl
    rw [← h]
    rfl
  · have h := claim_C3.2.2.1 (fun _ => none) "T0" []
      ⟨JVal.str "text/plain", [], [],
      JVal.null, JVal.null, JVal.null⟩
      [("mimeType", JVal.str "text/plain"), ("tokens", JVal.arr [])] rfl rfl
    rw [← h]
    rfl
  · have h := claim_C3.2.2.2.1 (fun _ => none) "T0" [("id", JVal.str "i"),
      ("speakerUri", JVal.str "s"), ("span", JVal.obj []),
      ("features", JVal.obj [("text", JVal.obj [])])]
      ⟨JVal.str "i", JVal.str "s", ⟨JVal.str "T0", JVal.null, JVal.null,
        JVal.null⟩, [("text", ⟨JVal.str "text/plain", [], [], JVal.null,
        JVal.null, JVal.null⟩)], JVal.null, JVal.null⟩
      [("id", JVal.str "i"), ("speakerUri", JVal.str "s"),
       ("span", JVal.obj [("startTime", JVal.str "T0")]),
       ("features", JVal.obj [("text", JVal.obj [("mimeType",
         JVal.str "text/plain"), ("tokens", JVal.arr [])])])] rfl rfl
    rw [← h]
    rfl
  · exact claim_C3.2.2.2.2.1 [("speakerUri", JVal.str "s"),
      ("serviceUrl", JVal.str "u")] _ rfl
  · exact claim_C3.2.2.2.2.2.1 [] _ rfl
  · exact claim_C3.2.2.2.2.2.2.1 [("keyphrases", JVal.arr []),
      ("descriptions", JVal.arr [])] _ rfl
  · exact claim_C3.2.2.2.2.2.2.2.1 [("identification", JVal.obj
      [("speakerUri", JVal.str "s"), ("serviceUrl", JVal.str "u")]),
      ("capabilities", JVal.arr [])] _ rfl
  · exact claim_C3.2.2.2.2.2.2.2.2.1 [] _ rfl
  · exact claim_C3.2.2.2.2.2.2.2.2.2.1 [("identification", JVal.obj
      [("speakerUri", JVal.str "s"), ("serviceUrl", JVal.str "u")])] _ rfl
  · exact claim_C3.2.2.2.2.2.2.2.2.2.2.1 "F" [] _ rfl
  · exact claim_C3.2.2.2.2.2.2.2.2.2.2.2.1 [("speakerUri", JVal.str "s")]
      _ rfl
  · exact claim_C3.2.2.2.2.2.2.2.2.2.2.2.2.1 [("speakerUri", JVal.str "s")]
      _ rfl
  · have h := claim_C3.2.2.2.2.2.2.2.2.2.2.2.2.2.1
      [("eventType", JVal.str "e")] ⟨JVal.str "e", none, JVal.null,
      JVal.obj []⟩ [("eventType", JVal.str "e")] rfl rfl
    rw [← h]
    rfl
  · have h := claim_C3.2.2.2.2.2.2.2.2.2.2.2.2.2.2 "F"
      [("conversation", JVal.obj []), ("sender", JVal.obj [("speakerUri",
        JVal.str "s")])]
      ⟨⟨JVal.str ("conv:" ++ "F"), []⟩, ⟨JVal.str "s", JVal.null⟩,
        ⟨JVal.str "1.0.0", JVal.null⟩, []⟩
      [("schema", JVal.obj [("version", JVal.str "1.0.0")]),
       ("conversation", JVal.obj [("id", JVal.str ("conv:" ++ "F"))]),
       ("sender", JVal.obj [("speakerUri", JVal.str "s")])] rfl rfl
    rw [← h]
    rfl

end OpenFloor